import Mathlib

/-!
Shallow embedding of the dataset-join-and-score pipeline of the
ticket-triage evaluation harness.

The embedding covers, faithfully to the Python source:
* `ticket_agent/schemas.py` — the `TicketTask` / `TicketResult` payloads and
  their pydantic validation (modelled as total functions over a JSON value
  type; validation error messages are abbreviated, the branch structure is
  preserved).
* `evaluation/issues.py` — the `IssueType` / `EvaluationIssue` records.
* `evaluation/dataset.py` — `_iter_lines`, `_parse_json`, `load_tasks`,
  `load_labels`, `assemble_examples`.
* `evaluation/metrics.py` — `MetricResult` and the four baseline metrics.
* `evaluation/agent_runner.py` — `CallableAgentRunner.run` (wall-clock time
  is external nondeterminism and is passed in as the `elapsed_ms` oracle).
* `evaluation/evaluator.py` — `evaluate_examples` and `summarize_results`
  (`float(...)` conversions that can raise a `TypeError` are modelled with
  `Option`: `none` is a raised exception).

A file is modelled as the list of its physical lines, each of which is
either blank (`line.strip()` empty), malformed (`json.loads` raises), or a
successfully parsed JSON value.  Python `dict`s are modelled as
association lists with unique keys in insertion order; Python `sorted` on
strings is code-point lexicographic order.
-/

namespace TriageEval

/-! ### Python string ordering (code-point lexicographic, as used by `sorted`) -/

/-- Lexicographic comparison of character lists by code point.  This is the
order Python uses to compare `str` values. -/
def charListLe : List Char → List Char → Bool
  | [], _ => true
  | _ :: _, [] => false
  | c :: cs, d :: ds => if c = d then charListLe cs ds else decide (c.toNat < d.toNat)

/-- Python `a <= b` on strings. -/
def strLe (a b : String) : Bool := charListLe a.data b.data

/-- The ordering relation used by `sorted(...)` in `assemble_examples`. -/
def strRel (a b : String) : Prop := strLe a b = true

instance : DecidableRel strRel := fun a b => inferInstanceAs (Decidable (strLe a b = true))

/-- Python `sorted(...)` on a collection of distinct strings. -/
def sortStrings (l : List String) : List String := List.insertionSort strRel l

/-! ### JSON values

A parsed JSON value as produced by `json.loads`.  An object is the parsed
Python `dict`: its keys are unique (duplicate keys in the raw text are
already resolved by the parser) and appear in insertion order. -/

inductive Json where
  | null
  | bool (b : Bool)
  | num (q : ℚ)
  | str (s : String)
  | arr (items : List Json)
  | obj (fields : List (String × Json))

/-- Python `payload.get(k)` on a parsed JSON object (`None` when absent). -/
def getKey (fields : List (String × Json)) (k : String) : Option Json :=
  List.lookup k fields

/-- Python `str(...)` of a JSON value, as used when a loader stringifies a
candidate identifier.  Renderings of composite values are abbreviated; no
claim inspects them. -/
def pyStr : Json → String
  | .null => "None"
  | .bool true => "True"
  | .bool false => "False"
  | .num q => toString q
  | .str s => s
  | .arr _ => "[...]"
  | .obj _ => "\x7b...\x7d"

/-! ### Schemas (`ticket_agent/schemas.py`)

`TicketCategory` / `TicketSeverity` are the closed `Literal` sets; the two
pydantic models are embedded as structures, and `model_validate` as a total
function returning `Except` (an `error` is a raised `ValidationError`; the
message abbreviates `exc.errors()`). -/

inductive TicketCategory where
  | bug | incident | request | question
deriving DecidableEq, Repr

inductive TicketSeverity where
  | low | medium | high | critical
deriving DecidableEq, Repr

structure TicketTask where
  ticket_id : String
  title : String
  description : String
  metadata : Option (List (String × String)) := none
deriving DecidableEq, Repr

structure TicketResult where
  category : TicketCategory
  severity : TicketSeverity
  next_step : String
  confidence : ℚ
deriving DecidableEq, Repr

/-- Validate a JSON object as a `dict[str, str]` (the `metadata` field). -/
def validateStrMap : List (String × Json) → Option (List (String × String))
  | [] => some []
  | (k, Json.str v) :: rest => (validateStrMap rest).map ((k, v) :: ·)
  | _ => none

/-- `TicketTask.model_validate` (pydantic, `extra="forbid"`, all three string
fields with `min_length=1`, optional `metadata : dict[str, str] | None`). -/
def TicketTask.model_validate (j : Json) : Except String TicketTask :=
  match j with
  | Json.obj fields =>
    if fields.any (fun p => !(["ticket_id", "title", "description", "metadata"].contains p.1)) then
      .error "extra fields forbidden"
    else
      match getKey fields "ticket_id", getKey fields "title", getKey fields "description" with
      | some (Json.str tid), some (Json.str title), some (Json.str descr) =>
        if tid.length < 1 || title.length < 1 || descr.length < 1 then
          .error "string too short"
        else
          match getKey fields "metadata" with
          | none => .ok { ticket_id := tid, title := title, description := descr, metadata := none }
          | some Json.null => .ok { ticket_id := tid, title := title, description := descr, metadata := none }
          | some (Json.obj m) =>
            match validateStrMap m with
            | some sm => .ok { ticket_id := tid, title := title, description := descr, metadata := some sm }
            | none => .error "metadata values must be strings"
          | some _ => .error "metadata must be a mapping"
      | _, _, _ => .error "missing or mistyped required field"
  | _ => .error "input is not a mapping"

/-- Decode a JSON value as a member of the closed `TicketCategory` set. -/
def ticketCategoryOf : Json → Option TicketCategory
  | Json.str "bug" => some .bug
  | Json.str "incident" => some .incident
  | Json.str "request" => some .request
  | Json.str "question" => some .question
  | _ => none

/-- Decode a JSON value as a member of the closed `TicketSeverity` set. -/
def ticketSeverityOf : Json → Option TicketSeverity
  | Json.str "low" => some .low
  | Json.str "medium" => some .medium
  | Json.str "high" => some .high
  | Json.str "critical" => some .critical
  | _ => none

/-- `TicketResult.model_validate` (pydantic, `extra="forbid"`, closed
category/severity sets, `next_step` with `min_length=1`, `confidence` a
number in `[0, 1]`). -/
def TicketResult.model_validate (j : Json) : Except String TicketResult :=
  match j with
  | Json.obj fields =>
    if fields.any (fun p => !(["category", "severity", "next_step", "confidence"].contains p.1)) then
      .error "extra fields forbidden"
    else
      match ticketCategoryOf ((getKey fields "category").getD Json.null),
            ticketSeverityOf ((getKey fields "severity").getD Json.null),
            getKey fields "next_step", getKey fields "confidence" with
      | some cat, some sev, some (Json.str step), some (Json.num conf) =>
        if step.length < 1 then .error "next_step too short"
        else if conf < 0 ∨ 1 < conf then .error "confidence out of range"
        else .ok { category := cat, severity := sev, next_step := step, confidence := conf }
      | _, _, _, _ => .error "missing or mistyped required field"
  | _ => .error "input is not a mapping"

/-! ### Issues (`evaluation/issues.py`) -/

inductive IssueType where
  | SCHEMA_FAILURE | JOIN_MISMATCH | METRIC_REGRESSION
deriving DecidableEq, Repr

structure EvaluationIssue where
  issue_type : IssueType
  details : String
  ticket_id : Option String := none
  metrics : Option (List (String × Json)) := none
  severity : String := "ERROR"

/-- `_append_issue` (dataset.py line 24): every loader issue carries default
`metrics` and `severity`. -/
def mkIssue (issue_type : IssueType) (details : String) (ticket_id : Option String) :
    EvaluationIssue :=
  { issue_type := issue_type, details := details, ticket_id := ticket_id }

/-! ### Line-delimited input files (`dataset.py`) -/

/-- A non-blank physical line, after the external `json.loads` step: either
the parser raised `JSONDecodeError` with message `msg`, or it produced a
JSON value. -/
inductive LineContent where
  | malformed (msg : String)
  | parsed (j : Json)

/-- A physical line of the file: blank (`line.strip()` empty) or content. -/
inductive RawLine where
  | blank
  | content (c : LineContent)

def iter_lines_go : Nat → List RawLine → List (Nat × LineContent)
  | _, [] => []
  | n, RawLine.blank :: rest => iter_lines_go (n + 1) rest
  | n, RawLine.content c :: rest => (n, c) :: iter_lines_go (n + 1) rest

/-- `_iter_lines` (dataset.py lines 28-33): enumerate lines from 1, skipping
blank lines silently. -/
def iter_lines (file : List RawLine) : List (Nat × LineContent) :=
  iter_lines_go 1 file

/-- The `f"{path}:{lineno} "` prelude of every loader issue message. -/
def lineTag (path : String) (lineno : Nat) : String :=
  path ++ ":" ++ toString lineno ++ " "

/-- `_parse_json` (dataset.py lines 36-45), per line: an `error` is the tail
of the schema-failure detail message; `ok` is the root object's fields. -/
def parse_json (c : LineContent) : Except String (List (String × Json)) :=
  match c with
  | .malformed msg => .error ("invalid JSON (" ++ msg ++ ")")
  | .parsed (Json.obj fields) => .ok fields
  | .parsed _ => .error "expected object root"

/-- The candidate identifier attached to a missing-task issue
(dataset.py line 61): `str(payload.get("ticket_id", "")) or None`. -/
def taskMissingCandidate (fields : List (String × Json)) : Option String :=
  match getKey fields "ticket_id" with
  | none => none
  | some v => if pyStr v = "" then none else some (pyStr v)

/-- The candidate identifier attached to a task-schema-violation issue
(dataset.py line 67): `task_data.get("ticket_id") if isinstance(task_data, dict) else None`
(non-string values are stringified in this model). -/
def taskViolationCandidate (task_data : Json) : Option String :=
  match task_data with
  | Json.obj fs =>
    match getKey fs "ticket_id" with
    | none => none
    | some Json.null => none
    | some v => some (pyStr v)
  | _ => none

/-- One task line of `load_tasks` (dataset.py lines 52-69), without the
duplicate check: an `error` carries the detail tail and the issue's
`ticket_id`; all errors are `SCHEMA_FAILURE` issues. -/
def task_line_eval (c : LineContent) : Except (String × Option String) TicketTask :=
  match parse_json c with
  | .error tail => .error (tail, none)
  | .ok fields =>
    match getKey fields "task" with
    | some Json.null => .error ("missing task field", taskMissingCandidate fields)
    | none => .error ("missing task field", taskMissingCandidate fields)
    | some task_data =>
      match TicketTask.model_validate task_data with
      | .error msg => .error ("task schema violation: " ++ msg, taskViolationCandidate task_data)
      | .ok task => .ok task

/-- The `difficulty` carried on a label line (dataset.py line 97/101):
retained only when it is a string. -/
def difficultyOf (fields : List (String × Json)) : Option String :=
  match getKey fields "difficulty" with
  | some (Json.str s) => some s
  | _ => none

/-- One label line of `load_labels` (dataset.py lines 80-97), without the
duplicate check: `ok` returns the ticket identifier, the validated expected
result, and the optional difficulty. -/
def label_line_eval (c : LineContent) :
    Except (String × Option String) (String × TicketResult × Option String) :=
  match parse_json c with
  | .error tail => .error (tail, none)
  | .ok fields =>
    match getKey fields "ticket_id" with
    | some (Json.str tid) =>
      if tid = "" then .error ("missing or invalid ticket_id", none)
      else
        match getKey fields "expected_result" with
        | some Json.null => .error ("missing expected_result field", some tid)
        | none => .error ("missing expected_result field", some tid)
        | some expected =>
          match TicketResult.model_validate expected with
          | .error msg => .error ("result schema violation: " ++ msg, some tid)
          | .ok result => .ok (tid, result, difficultyOf fields)
    | _ => .error ("missing or invalid ticket_id", none)

/-- Loop of `load_tasks` (dataset.py lines 48-74).  The map is a Python
dict in insertion order; a validated record whose identifier is already
present yields a `JOIN_MISMATCH` issue and is dropped. -/
def load_tasks_go (path : String) :
    List (Nat × LineContent) → List (String × TicketTask) → List EvaluationIssue →
      List (String × TicketTask) × List EvaluationIssue
  | [], tasks, issues => (tasks, issues)
  | (lineno, c) :: rest, tasks, issues =>
    match task_line_eval c with
    | .error (tail, tid) =>
      load_tasks_go path rest tasks
        (issues ++ [mkIssue .SCHEMA_FAILURE (lineTag path lineno ++ tail) tid])
    | .ok task =>
      if (tasks.lookup task.ticket_id).isSome then
        load_tasks_go path rest tasks
          (issues ++ [mkIssue .JOIN_MISMATCH (lineTag path lineno ++ "duplicate ticket_id") (some task.ticket_id)])
      else
        load_tasks_go path rest (tasks ++ [(task.ticket_id, task)]) issues

/-- `load_tasks` (dataset.py lines 48-74). -/
def load_tasks (path : String) (file : List RawLine) :
    List (String × TicketTask) × List EvaluationIssue :=
  load_tasks_go path (iter_lines file) [] []

/-- Loop of `load_labels` (dataset.py lines 77-102). -/
def load_labels_go (path : String) :
    List (Nat × LineContent) → List (String × (TicketResult × Option String)) →
      List EvaluationIssue →
      List (String × (TicketResult × Option String)) × List EvaluationIssue
  | [], labels, issues => (labels, issues)
  | (lineno, c) :: rest, labels, issues =>
    match label_line_eval c with
    | .error (tail, tid) =>
      load_labels_go path rest labels
        (issues ++ [mkIssue .SCHEMA_FAILURE (lineTag path lineno ++ tail) tid])
    | .ok (tid, result, difficulty) =>
      if (labels.lookup tid).isSome then
        load_labels_go path rest labels
          (issues ++ [mkIssue .JOIN_MISMATCH (lineTag path lineno ++ "duplicate ticket_id") (some tid)])
      else
        load_labels_go path rest (labels ++ [(tid, (result, difficulty))]) issues

/-- `load_labels` (dataset.py lines 77-102). -/
def load_labels (path : String) (file : List RawLine) :
    List (String × (TicketResult × Option String)) × List EvaluationIssue :=
  load_labels_go path (iter_lines file) [] []

/-! ### Dataset assembly (`dataset.py` lines 105-127) -/

structure EvalExample where
  task : TicketTask
  gold : TicketResult
  difficulty : Option String := none
deriving DecidableEq, Repr

structure DatasetLoadResult where
  examples : List EvalExample
  issues : List EvaluationIssue

/-- The keys of a Python dict, in insertion order. -/
def keysOf {α : Type} (m : List (String × α)) : List String := m.map Prod.fst

/-- `assemble_examples` (dataset.py lines 105-127): load both files, emit the
two outer-join remainders as sorted `JOIN_MISMATCH` issues, and build one
example per identifier of the sorted inner join. -/
def assemble_examples (tasks_path : String) (tasks_file : List RawLine)
    (labels_path : String) (labels_file : List RawLine) : DatasetLoadResult :=
  let tl := load_tasks tasks_path tasks_file
  let ll := load_labels labels_path labels_file
  let task_ids := keysOf tl.1
  let label_ids := keysOf ll.1
  let missing := sortStrings (task_ids.filter (fun id => !(label_ids.contains id)))
  let orphan := sortStrings (label_ids.filter (fun id => !(task_ids.contains id)))
  let both := sortStrings (task_ids.filter (fun id => label_ids.contains id))
  { examples :=
      both.filterMap (fun id =>
        (tl.1.lookup id).bind fun task =>
          (ll.1.lookup id).map fun rd =>
            { task := task, gold := rd.1, difficulty := rd.2 }),
    issues :=
      tl.2 ++ ll.2
        ++ missing.map (fun id => mkIssue .JOIN_MISMATCH "missing expected result for ticket_id" (some id))
        ++ orphan.map (fun id => mkIssue .JOIN_MISMATCH "orphan expected result without matching task" (some id)) }

/-! ### Run metadata and responses (`evaluation/types.py`) -/

structure AgentRunMetadata where
  latency_ms : Option ℚ := none
  tokens_in : Option ℤ := none
  tokens_out : Option ℤ := none
  usd_cost : Option ℚ := none
  tool_calls : Option ℤ := none
  retries : Option ℤ := none
  cache_hit : Option Bool := none
  failure_reason : Option String := none
deriving DecidableEq, Repr

structure AgentResponse where
  result : TicketResult
  metadata : AgentRunMetadata
deriving DecidableEq, Repr

/-! ### Metrics (`evaluation/metrics.py`)

A metric value is `float | bool`; a detail value is `float | bool | str`.
The evaluator's per-example mapping stores either a scalar metric value or
a details dict. -/

inductive ScalarValue where
  | num (q : ℚ)
  | bool (b : Bool)
deriving DecidableEq, Repr

inductive DetailValue where
  | num (q : ℚ)
  | bool (b : Bool)
  | str (s : String)
deriving DecidableEq, Repr

structure MetricResult where
  name : String
  value : ScalarValue
  details : Option (List (String × DetailValue)) := none
deriving DecidableEq, Repr

/-- The `Metric` protocol (metrics.py lines 22-27): a named, stateless
`compute` function. -/
structure Metric where
  name : String
  compute : EvalExample → AgentResponse → MetricResult

/-- `SchemaValidityMetric` (metrics.py lines 30-35). -/
def SchemaValidityMetric : Metric :=
  { name := "schema_valid",
    compute := fun _ _ => { name := "schema_valid", value := .bool true } }

/-- `CategoricalAccuracyMetric` (metrics.py lines 38-49). -/
def CategoricalAccuracyMetric : Metric :=
  { name := "categorical_accuracy",
    compute := fun ex response =>
      let correct :=
        decide (ex.gold.category = response.result.category) &&
          decide (ex.gold.severity = response.result.severity)
      { name := "categorical_accuracy",
        value := .num (if correct then 1 else 0),
        details := some
          [("category_match", .bool (decide (ex.gold.category = response.result.category))),
           ("severity_match", .bool (decide (ex.gold.severity = response.result.severity)))] } }

/-- Python default `str.strip()` whitespace (ASCII fragment). -/
def pyWhitespace (c : Char) : Bool :=
  c = ' ' || c = '\t' || c = '\n' || c = '\r' || c.toNat = 11 || c.toNat = 12

/-- Python `s.strip()`: drop leading and trailing whitespace. -/
def pyStrip (s : String) : String :=
  ⟨((s.data.dropWhile pyWhitespace).reverse.dropWhile pyWhitespace).reverse⟩

/-- Python `s.lower()` (ASCII model). -/
def pyLower (s : String) : String :=
  ⟨s.data.map Char.toLower⟩

/-- `NextStepMatcher` (metrics.py lines 52-59): compare the two next-step
strings after `strip().lower()`. -/
def NextStepMatcher : Metric :=
  { name := "next_step_match",
    compute := fun ex response =>
      let gold_step := pyLower (pyStrip ex.gold.next_step)
      let pred_step := pyLower (pyStrip response.result.next_step)
      { name := "next_step_match",
        value := .bool (gold_step == pred_step),
        details := some
          [("normalized_gold", .str gold_step), ("normalized_pred", .str pred_step)] } }

/-- `CostAggregator` (metrics.py lines 62-68): the recorded cost, or `0.0`
when unmeasured. -/
def CostAggregator : Metric :=
  { name := "usd_cost",
    compute := fun _ response =>
      { name := "usd_cost", value := .num ((response.metadata.usd_cost).getD 0) } }

/-! ### Agent runner (`evaluation/agent_runner.py`) -/

structure RunContext where
  task : TicketTask
  result : TicketResult
  elapsed_ms : ℚ

/-- `CallableAgentRunner.run` (agent_runner.py lines 48-62).  The wrapped
callable returns either a bare `TicketResult` or a full `AgentResponse`;
the measured wall-clock time is external nondeterminism and enters as the
`elapsed_ms` oracle. -/
def CallableAgentRunner.run
    (agent_callable : TicketTask → TicketResult ⊕ AgentResponse)
    (metadata_hook : Option (RunContext → AgentRunMetadata))
    (elapsed_ms : ℚ) (task : TicketTask) : AgentResponse :=
  match agent_callable task with
  | Sum.inr response =>
    match response.metadata.latency_ms with
    | none => { response with metadata := { response.metadata with latency_ms := some elapsed_ms } }
    | some _ => response
  | Sum.inl result =>
    { result := result,
      metadata :=
        match metadata_hook with
        | some hook => hook { task := task, result := result, elapsed_ms := elapsed_ms }
        | none => { latency_ms := some elapsed_ms } }

/-! ### Evaluator (`evaluation/evaluator.py` lines 14-43) -/

/-- An entry of the per-example metrics mapping
(`dict[str, float | bool | dict]`). -/
inductive MetricEntry where
  | scalar (v : ScalarValue)
  | dict (d : List (String × DetailValue))
deriving DecidableEq, Repr

structure EvalResult where
  ticket_id : String
  output : TicketResult
  metrics : List (String × MetricEntry)
  metadata : AgentRunMetadata
deriving DecidableEq, Repr

/-- Python `d[k] = v` on a dict modelled as an insertion-ordered assoc
list: replace in place when the key exists, else append. -/
def dictInsert {α : Type} (m : List (String × α)) (k : String) (v : α) :
    List (String × α) :=
  if (m.lookup k).isSome then m.map (fun p => if p.1 = k then (k, v) else p)
  else m ++ [(k, v)]

/-- One pass of the inner metric loop (evaluator.py lines 29-33): store the
metric's value under `metric_result.name`, and its details under
`f"{name}_details"` only when they are truthy (non-`None` and non-empty). -/
def metric_loop_step (ex : EvalExample) (response : AgentResponse)
    (outputs : List (String × MetricEntry)) (metric : Metric) : List (String × MetricEntry) :=
  let metric_result := metric.compute ex response
  let outputs := dictInsert outputs metric_result.name (.scalar metric_result.value)
  match metric_result.details with
  | some d => if d.isEmpty then outputs else dictInsert outputs (metric_result.name ++ "_details") (.dict d)
  | none => outputs

/-- The inner metric loop (evaluator.py lines 28-33). -/
def run_metrics (metrics : List Metric) (ex : EvalExample) (response : AgentResponse) :
    List (String × MetricEntry) :=
  metrics.foldl (metric_loop_step ex response) []

/-- The body of the per-example loop (evaluator.py lines 27-41): one runner
invocation, then all metrics. -/
def eval_step (run : TicketTask → AgentResponse) (metrics : List Metric)
    (ex : EvalExample) : EvalResult :=
  let response := run ex.task
  { ticket_id := ex.task.ticket_id,
    output := response.result,
    metrics := run_metrics metrics ex response,
    metadata := response.metadata }

/-- The loop of `evaluate_examples` with its running `count`
(evaluator.py lines 22-43): stop before invoking the runner once
`count >= limit`. -/
def evaluate_go (run : TicketTask → AgentResponse) (metrics : List Metric)
    (limit : Option ℤ) : List EvalExample → Nat → List EvalResult
  | [], _ => []
  | ex :: rest, count =>
    match limit with
    | some l =>
      if (count : ℤ) ≥ l then []
      else eval_step run metrics ex :: evaluate_go run metrics (some l) rest (count + 1)
    | none => eval_step run metrics ex :: evaluate_go run metrics none rest (count + 1)

/-- `evaluate_examples` (evaluator.py lines 14-43).  The
`AgentRunnerProtocol` is its single `run` method. -/
def evaluate_examples (examples : List EvalExample) (run : TicketTask → AgentResponse)
    (metrics : List Metric) (limit : Option ℤ) : List EvalResult :=
  evaluate_go run metrics limit examples 0

/-! ### Aggregator (`evaluation/evaluator.py` lines 46-84) -/

structure AggregateSummary where
  total_examples : ℕ
  categorical_accuracy : ℚ
  next_step_match_rate : ℚ
  schema_valid_pct : ℚ
  total_cost_usd : ℚ
deriving DecidableEq, Repr

/-- Python `float(...)` on a metrics-mapping entry: numbers convert to
themselves, booleans to 1/0, and a dict raises `TypeError` (`none`). -/
def pyFloat : MetricEntry → Option ℚ
  | .scalar (.num q) => some q
  | .scalar (.bool b) => some (if b then 1 else 0)
  | .dict _ => none

/-- `float(metrics.get("categorical_accuracy", 0.0))` (evaluator.py line 69). -/
def accFloat (result : EvalResult) : Option ℚ :=
  pyFloat ((result.metrics.lookup "categorical_accuracy").getD (.scalar (.num 0)))

/-- `float(metrics.get("usd_cost", 0.0))` (evaluator.py line 76). -/
def costFloat (result : EvalResult) : Option ℚ :=
  pyFloat ((result.metrics.lookup "usd_cost").getD (.scalar (.num 0)))

/-- The next-step contribution (evaluator.py lines 70-72): 1/0 for a
present boolean value, 0 otherwise. -/
def nsContrib (result : EvalResult) : ℚ :=
  match result.metrics.lookup "next_step_match" with
  | some (.scalar (.bool b)) => if b then 1 else 0
  | _ => 0

/-- The schema-valid contribution (evaluator.py lines 73-75): 1/0 for a
present boolean value, 0 otherwise. -/
def svContrib (result : EvalResult) : ℚ :=
  match result.metrics.lookup "schema_valid" with
  | some (.scalar (.bool b)) => if b then 1 else 0
  | _ => 0

/-- One iteration of the summation loop (evaluator.py lines 67-76) over the
accumulated `(accuracy_sum, next_step_sum, schema_valid_sum, cost_sum)`;
`none` is a raised `TypeError` from `float(...)`. -/
def sums_step (acc : ℚ × ℚ × ℚ × ℚ) (result : EvalResult) : Option (ℚ × ℚ × ℚ × ℚ) :=
  match accFloat result with
  | none => none
  | some a =>
    match costFloat result with
    | none => none
    | some c => some (acc.1 + a, acc.2.1 + nsContrib result, acc.2.2.1 + svContrib result, acc.2.2.2 + c)

/-- `summarize_results` (evaluator.py lines 57-84); `none` is a raised
`TypeError` from a `float(...)` conversion. -/
def summarize_results (results : List EvalResult) : Option AggregateSummary :=
  if results.length = 0 then
    some { total_examples := 0, categorical_accuracy := 0, next_step_match_rate := 0,
           schema_valid_pct := 0, total_cost_usd := 0 }
  else
    (results.foldlM sums_step (0, 0, 0, 0)).map fun s =>
      { total_examples := results.length,
        categorical_accuracy := s.1 / results.length,
        next_step_match_rate := s.2.1 / results.length,
        schema_valid_pct := s.2.2.1 / results.length,
        total_cost_usd := s.2.2.2 }

/-! ### Derived notions used in the statements -/

/-- The validated task records of a line sequence carrying identifier `id`,
in line order — the occurrences that reach the duplicate check of
`load_tasks` (dataset.py line 70). -/
def validTasks (lines : List (Nat × LineContent)) (id : String) : List TicketTask :=
  lines.filterMap (fun p =>
    match task_line_eval p.2 with
    | .ok t => if t.ticket_id = id then some t else none
    | .error _ => none)

/-- The validated label records of a line sequence carrying identifier `id`,
in line order — the occurrences that reach the duplicate check of
`load_labels` (dataset.py line 98). -/
def validLabels (lines : List (Nat × LineContent)) (id : String) :
    List (TicketResult × Option String) :=
  lines.filterMap (fun p =>
    match label_line_eval p.2 with
    | .ok (tid, rd) => if tid = id then some rd else none
    | .error _ => none)

/-- The number of `JOIN_MISMATCH` issues referencing `id`. -/
def dupIssueCount (id : String) (issues : List EvaluationIssue) : ℕ :=
  (issues.filter (fun e =>
    decide (e.issue_type = .JOIN_MISMATCH) && decide (e.ticket_id = some id))).length

/-- The two mapping entries one metric contributes
(evaluator.py lines 30-33): its value, then its details when truthy. -/
def metricEntriesOf (m : Metric) (ex : EvalExample) (response : AgentResponse) :
    List (String × MetricEntry) :=
  let metric_result := m.compute ex response
  (metric_result.name, .scalar metric_result.value) ::
    (match metric_result.details with
     | some d => if d.isEmpty then [] else [(metric_result.name ++ "_details", .dict d)]
     | none => [])

/-- The metrics mapping as the in-order concatenation of every metric's
entries. -/
def metricFlat (metrics : List Metric) (ex : EvalExample) (response : AgentResponse) :
    List (String × MetricEntry) :=
  (metrics.map (fun m => metricEntriesOf m ex response)).flatten

/-- The keys of `metricFlat`, in order. -/
def metricFlatKeys (metrics : List Metric) (ex : EvalExample) (response : AgentResponse) :
    List String :=
  (metricFlat metrics ex response).map Prod.fst

/-- `_metrics` (run.py): the baseline metric set, in its fixed order. -/
def metricsList : List Metric :=
  [SchemaValidityMetric, CategoricalAccuracyMetric, NextStepMatcher, CostAggregator]

/-! ### Concrete inputs used by witnesses and counterexamples -/

/-- A task line for identifier `id` that passes schema validation. -/
def taskLine (id : String) : RawLine :=
  RawLine.content (LineContent.parsed (Json.obj
    [("task", Json.obj
      [("ticket_id", Json.str id), ("title", Json.str "t"), ("description", Json.str "d")])]))

/-- A label line for identifier `id` that passes schema validation. -/
def labelLine (id : String) : RawLine :=
  RawLine.content (LineContent.parsed (Json.obj
    [("ticket_id", Json.str id),
     ("difficulty", Json.str "easy"),
     ("expected_result", Json.obj
       [("category", Json.str "bug"), ("severity", Json.str "high"),
        ("next_step", Json.str "Fix it"), ("confidence", Json.num 1)])]))

/-- The gold result encoded by `labelLine`. -/
def goldResult : TicketResult :=
  { category := .bug, severity := .high, next_step := "Fix it", confidence := 1 }

/-- The task encoded by `taskLine`. -/
def taskOf (id : String) : TicketTask :=
  { ticket_id := id, title := "t", description := "d" }

/-- A result whose metrics mapping holds only a numeric
`categorical_accuracy` of 1.0. -/
def accOnlyResult : EvalResult :=
  { ticket_id := "TKT-1", output := goldResult,
    metrics := [("categorical_accuracy", MetricEntry.scalar (.num 1))], metadata := {} }

/-- A result whose `usd_cost` metric value is a (non-numeric) dict. -/
def dictCostResult : EvalResult :=
  { ticket_id := "TKT-2", output := goldResult,
    metrics := [("usd_cost", MetricEntry.dict [])], metadata := {} }

/-- A result with accuracy 1.0 and cost 1/4. -/
def quarterCostResult : EvalResult :=
  { ticket_id := "TKT-1", output := goldResult,
    metrics := [("categorical_accuracy", MetricEntry.scalar (.num 1)),
                ("usd_cost", MetricEntry.scalar (.num (1/4)))], metadata := {} }

/-- A full response whose metadata reports a cost but no latency. -/
def respNoLatency : AgentResponse :=
  { result := goldResult, metadata := { usd_cost := some 2 } }

/-- A full response whose metadata already reports a latency of 7ms. -/
def respWithLatency : AgentResponse :=
  { result := goldResult, metadata := { latency_ms := some 7, usd_cost := some 2 } }

/-- A concrete example pairing `taskOf "a"` with the gold result. -/
def exampleW : EvalExample := { task := taskOf "a", gold := goldResult }

/-- A runner that echoes the gold result with empty metadata. -/
def echoRun : TicketTask → AgentResponse := fun _ => { result := goldResult, metadata := {} }

/-- A tasks file holding only identifier `b`. -/
def tasksFileB : List RawLine := [taskLine "b"]

/-- A labels file holding only identifier `a`. -/
def labelsFileA : List RawLine := [labelLine "a"]

/-- The `ticket_id`s of a list of issues, in order. -/
def issueIds (issues : List EvaluationIssue) : List (Option String) :=
  issues.map EvaluationIssue.ticket_id

/-- The `issue_type`s of a list of issues, in order. -/
def issueKinds (issues : List EvaluationIssue) : List IssueType :=
  issues.map EvaluationIssue.issue_type

/-- The `details` strings of a list of issues, in order. -/
def issueDetails (issues : List EvaluationIssue) : List String :=
  issues.map EvaluationIssue.details

/-! ## Theorems -/

theorem charListLe_total (xs ys : List Char) :
    charListLe xs ys = true ∨ charListLe ys xs = true := by
  induction xs generalizing ys with
  | nil => exact Or.inl rfl
  | cons c cs ih =>
    cases ys with
    | nil => exact Or.inr rfl
    | cons d ds =>
      by_cases hcd : c = d
      · subst hcd
        simpa [charListLe] using ih ds
      · have hdc : d ≠ c := fun h => hcd h.symm
        have hne : c.toNat ≠ d.toNat := by
          intro h
          exact hcd (Char.eq_of_val_eq (UInt32.toNat.inj h))
        rcases Nat.lt_or_ge c.toNat d.toNat with h | h
        · exact Or.inl (by simp [charListLe, hcd, h])
        · have : d.toNat < c.toNat := lt_of_le_of_ne h (fun hh => hne hh.symm)
          exact Or.inr (by simp [charListLe, hdc, this])

theorem charListLe_trans (xs ys zs : List Char)
    (hxy : charListLe xs ys = true) (hyz : charListLe ys zs = true) :
    charListLe xs zs = true := by
  induction xs generalizing ys zs with
  | nil => rfl
  | cons c cs ih =>
    cases ys with
    | nil => simp [charListLe] at hxy
    | cons d ds =>
      cases zs with
      | nil => simp [charListLe] at hyz
      | cons e es =>
        by_cases hcd : c = d <;> by_cases hde : d = e
        · subst hcd; subst hde
          simp only [charListLe, if_pos rfl] at hxy hyz ⊢
          exact ih ds es hxy hyz
        · subst hcd
          simp only [charListLe, if_pos rfl] at hxy
          simpa [charListLe, hde] using hyz
        · subst hde
          simpa [charListLe, hcd] using hxy
        · simp only [charListLe, if_neg hcd] at hxy
          simp only [charListLe, if_neg hde] at hyz
          have h1 : c.toNat < d.toNat := by simpa using hxy
          have h2 : d.toNat < e.toNat := by simpa using hyz
          have hce : c.toNat < e.toNat := Nat.lt_trans h1 h2
          have hne : c ≠ e := by
            intro h
            subst h
            exact Nat.lt_irrefl _ (Nat.lt_trans h1 h2)
          simp [charListLe, hne, hce]

theorem sortStrings_perm (l : List String) : (sortStrings l).Perm l :=
  List.perm_insertionSort strRel l

theorem sortStrings_sorted (l : List String) : List.Sorted strRel (sortStrings l) := by
  haveI : IsTotal String strRel := ⟨fun a b => charListLe_total a.data b.data⟩
  haveI : IsTrans String strRel := ⟨fun a b c hab hbc => charListLe_trans a.data b.data c.data hab hbc⟩
  exact List.sorted_insertionSort strRel l

theorem sortStrings_mem {a : String} {l : List String} : a ∈ sortStrings l ↔ a ∈ l :=
  (sortStrings_perm l).mem_iff

theorem sortStrings_length (l : List String) : (sortStrings l).length = l.length :=
  (sortStrings_perm l).length_eq

theorem sortStrings_nodup {l : List String} (h : l.Nodup) : (sortStrings l).Nodup :=
  ((sortStrings_perm l).nodup_iff).mpr h

/-! ### Association-list dictionaries -/

theorem lookup_isSome_iff_mem_keys {α : Type} (m : List (String × α)) (k : String) :
    (m.lookup k).isSome = true ↔ k ∈ keysOf m := by
  induction m with
  | nil => simp [keysOf]
  | cons p rest ih =>
    obtain ⟨a, b⟩ := p
    by_cases h : k = a
    · subst h
      simp [keysOf, List.lookup_cons]
    · simp only [keysOf, List.lookup_cons, List.map_cons, List.mem_cons]
      have hbeq : (k == a) = false := by simpa using h
      simp [hbeq, ih, keysOf, h]

theorem lookup_eq_some_mem {α : Type} {m : List (String × α)} {k : String} {v : α}
    (h : m.lookup k = some v) : (k, v) ∈ m := by
  induction m with
  | nil => simp [List.lookup] at h
  | cons p rest ih =>
    obtain ⟨a, b⟩ := p
    by_cases hk : k = a
    · subst hk
      simp [List.lookup_cons] at h
      simp [h]
    · have hbeq : (k == a) = false := by simpa using hk
      simp [List.lookup_cons, hbeq] at h
      simp [ih h]

theorem lookup_singleton_ne {α : Type} {k a : String} (v : α) (h : k ≠ a) :
    List.lookup k [(a, v)] = none := by
  have hbeq : (k == a) = false := by simpa using h
  simp [List.lookup_cons, hbeq]

theorem lookup_singleton_eq {α : Type} (k : String) (v : α) :
    List.lookup k [(k, v)] = some v := by
  simp [List.lookup_cons]

/-! ### Line iteration -/

theorem iter_lines_go_append_blank (xs : List RawLine) (n : Nat) :
    iter_lines_go n (xs ++ [RawLine.blank]) = iter_lines_go n xs := by
  induction xs generalizing n with
  | nil => simp [iter_lines_go]
  | cons x rest ih =>
    cases x with
    | blank => simpa [iter_lines_go] using ih (n + 1)
    | content c => simpa [iter_lines_go] using ih (n + 1)

theorem iter_lines_append_blank (xs : List RawLine) :
    iter_lines (xs ++ [RawLine.blank]) = iter_lines xs :=
  iter_lines_go_append_blank xs 1

/-! ### Loader invariants: `load_tasks` -/

theorem load_tasks_go_count (path : String) (lines : List (Nat × LineContent))
    (tasks : List (String × TicketTask)) (issues : List EvaluationIssue) :
    (load_tasks_go path lines tasks issues).1.length
      + (load_tasks_go path lines tasks issues).2.length
      = tasks.length + issues.length + lines.length := by
  induction lines generalizing tasks issues with
  | nil => simp [load_tasks_go]
  | cons p rest ih =>
    obtain ⟨lineno, c⟩ := p
    rcases h : task_line_eval c with pr | task
    · obtain ⟨tail, tid⟩ := pr
      simp only [load_tasks_go, h]
      rw [ih]
      simp
      omega
    · by_cases hdup : (tasks.lookup task.ticket_id).isSome
      · simp only [load_tasks_go, h, if_pos hdup]
        rw [ih]
        simp
        omega
      · simp only [load_tasks_go, h, if_neg hdup]
        rw [ih]
        simp
        omega

theorem load_tasks_go_issues_src (path : String) (lines : List (Nat × LineContent))
    (tasks : List (String × TicketTask)) (issues : List EvaluationIssue) :
    ∀ e ∈ (load_tasks_go path lines tasks issues).2,
      e ∈ issues ∨ ∃ p ∈ lines, ∃ tail, e.details = lineTag path p.1 ++ tail := by
  induction lines generalizing tasks issues with
  | nil =>
    intro e he
    exact Or.inl (by simpa [load_tasks_go] using he)
  | cons p rest ih =>
    obtain ⟨lineno, c⟩ := p
    intro e he
    rcases h : task_line_eval c with pr | task
    · obtain ⟨tail, tid⟩ := pr
      simp only [load_tasks_go, h] at he
      rcases ih _ _ e he with hmem | ⟨q, hq, t, ht⟩
      · rcases List.mem_append.mp hmem with h1 | h2
        · exact Or.inl h1
        · refine Or.inr ⟨(lineno, c), List.mem_cons_self _ _, tail, ?_⟩
          simp only [List.mem_singleton] at h2
          subst h2
          rfl
      · exact Or.inr ⟨q, List.mem_cons_of_mem _ hq, t, ht⟩
    · by_cases hdup : (tasks.lookup task.ticket_id).isSome
      · simp only [load_tasks_go, h, if_pos hdup] at he
        rcases ih _ _ e he with hmem | ⟨q, hq, t, ht⟩
        · rcases List.mem_append.mp hmem with h1 | h2
          · exact Or.inl h1
          · refine Or.inr ⟨(lineno, c), List.mem_cons_self _ _, "duplicate ticket_id", ?_⟩
            simp only [List.mem_singleton] at h2
            subst h2
            rfl
        · exact Or.inr ⟨q, List.mem_cons_of_mem _ hq, t, ht⟩
      · simp only [load_tasks_go, h, if_neg hdup] at he
        rcases ih _ _ e he with hmem | ⟨q, hq, t, ht⟩
        · exact Or.inl hmem
        · exact Or.inr ⟨q, List.mem_cons_of_mem _ hq, t, ht⟩

theorem load_tasks_go_entries (path : String) (lines : List (Nat × LineContent))
    (tasks : List (String × TicketTask)) (issues : List EvaluationIssue) :
    ∀ kv ∈ (load_tasks_go path lines tasks issues).1,
      kv ∈ tasks ∨ ∃ p ∈ lines, task_line_eval p.2 = Except.ok kv.2 ∧ kv.1 = kv.2.ticket_id := by
  induction lines generalizing tasks issues with
  | nil =>
    intro kv hkv
    exact Or.inl (by simpa [load_tasks_go] using hkv)
  | cons p rest ih =>
    obtain ⟨lineno, c⟩ := p
    intro kv hkv
    rcases h : task_line_eval c with pr | task
    · obtain ⟨tail, tid⟩ := pr
      simp only [load_tasks_go, h] at hkv
      rcases ih _ _ kv hkv with hmem | ⟨q, hq, hok, hid⟩
      · exact Or.inl hmem
      · exact Or.inr ⟨q, List.mem_cons_of_mem _ hq, hok, hid⟩
    · by_cases hdup : (tasks.lookup task.ticket_id).isSome
      · simp only [load_tasks_go, h, if_pos hdup] at hkv
        rcases ih _ _ kv hkv with hmem | ⟨q, hq, hok, hid⟩
        · exact Or.inl hmem
        · exact Or.inr ⟨q, List.mem_cons_of_mem _ hq, hok, hid⟩
      · simp only [load_tasks_go, h, if_neg hdup] at hkv
        rcases ih _ _ kv hkv with hmem | ⟨q, hq, hok, hid⟩
        · rcases List.mem_append.mp hmem with h1 | h2
          · exact Or.inl h1
          · simp only [List.mem_singleton] at h2
            subst h2
            exact Or.inr ⟨(lineno, c), List.mem_cons_self _ _, h, rfl⟩
        · exact Or.inr ⟨q, List.mem_cons_of_mem _ hq, hok, hid⟩

theorem load_tasks_go_nodup_keys (path : String) (lines : List (Nat × LineContent))
    (tasks : List (String × TicketTask)) (issues : List EvaluationIssue)
    (h : (keysOf tasks).Nodup) :
    (keysOf (load_tasks_go path lines tasks issues).1).Nodup := by
  induction lines generalizing tasks issues with
  | nil => simpa [load_tasks_go] using h
  | cons p rest ih =>
    obtain ⟨lineno, c⟩ := p
    rcases hev : task_line_eval c with pr | task
    · obtain ⟨tail, tid⟩ := pr
      simp only [load_tasks_go, hev]
      exact ih _ _ h
    · by_cases hdup : (tasks.lookup task.ticket_id).isSome
      · simp only [load_tasks_go, hev, if_pos hdup]
        exact ih _ _ h
      · simp only [load_tasks_go, hev, if_neg hdup]
        refine ih _ _ ?_
        have hnot : task.ticket_id ∉ keysOf tasks := by
          intro hmem
          exact hdup ((lookup_isSome_iff_mem_keys tasks task.ticket_id).mpr hmem)
        simpa [keysOf, List.nodup_append] using And.intro h hnot

theorem load_tasks_go_lookup (path : String) (lines : List (Nat × LineContent))
    (tasks : List (String × TicketTask)) (issues : List EvaluationIssue) (id : String) :
    (load_tasks_go path lines tasks issues).1.lookup id
      = ((tasks.lookup id).or (validTasks lines id).head?) := by
  induction lines generalizing tasks issues with
  | nil => simp [load_tasks_go, validTasks]
  | cons p rest ih =>
    obtain ⟨lineno, c⟩ := p
    rcases hev : task_line_eval c with pr | task
    · obtain ⟨tail, tid⟩ := pr
      simp only [load_tasks_go, hev]
      rw [ih]
      simp [validTasks, List.filterMap_cons, hev]
    · by_cases hdup : (tasks.lookup task.ticket_id).isSome
      · simp only [load_tasks_go, hev, if_pos hdup]
        rw [ih]
        by_cases hid : task.ticket_id = id
        · subst hid
          obtain ⟨v, hv⟩ := Option.isSome_iff_exists.mp hdup
          simp [validTasks, List.filterMap_cons, hev, hv]
        · simp [validTasks, List.filterMap_cons, hev, hid]
      · simp only [load_tasks_go, hev, if_neg hdup]
        rw [ih]
        by_cases hid : task.ticket_id = id
        · subst hid
          have hnone : tasks.lookup task.ticket_id = none :=
            Option.not_isSome_iff_eq_none.mp hdup
          rw [List.lookup_append, hnone, lookup_singleton_eq]
          simp [validTasks, List.filterMap_cons, hev]
        · rw [List.lookup_append, lookup_singleton_ne _ (fun hh => hid hh.symm)]
          simp [validTasks, List.filterMap_cons, hev, hid]

theorem dupIssueCount_append_schema (id : String) (issues : List EvaluationIssue)
    (details : String) (tid : Option String) :
    dupIssueCount id (issues ++ [mkIssue .SCHEMA_FAILURE details tid]) = dupIssueCount id issues := by
  simp [dupIssueCount, List.filter_append, mkIssue]

theorem dupIssueCount_append_join (id : String) (issues : List EvaluationIssue)
    (details : String) (tid : String) :
    dupIssueCount id (issues ++ [mkIssue .JOIN_MISMATCH details (some tid)])
      = dupIssueCount id issues + (if tid = id then 1 else 0) := by
  by_cases h : tid = id
  · subst h
    simp [dupIssueCount, List.filter_append, mkIssue]
  · simp [dupIssueCount, List.filter_append, mkIssue, h]

theorem load_tasks_go_dupCount (path : String) (lines : List (Nat × LineContent))
    (tasks : List (String × TicketTask)) (issues : List EvaluationIssue) (id : String) :
    dupIssueCount id (load_tasks_go path lines tasks issues).2
      = dupIssueCount id issues
        + (if (tasks.lookup id).isSome then (validTasks lines id).length
           else (validTasks lines id).length - 1) := by
  induction lines generalizing tasks issues with
  | nil => simp [load_tasks_go, validTasks]
  | cons p rest ih =>
    obtain ⟨lineno, c⟩ := p
    rcases hev : task_line_eval c with pr | task
    · obtain ⟨tail, tid⟩ := pr
      simp only [load_tasks_go, hev]
      rw [ih, dupIssueCount_append_schema]
      simp [validTasks, List.filterMap_cons, hev]
    · by_cases hdup : (tasks.lookup task.ticket_id).isSome
      · simp only [load_tasks_go, hev, if_pos hdup]
        rw [ih, dupIssueCount_append_join]
        by_cases hid : task.ticket_id = id
        · subst hid
          simp [validTasks, List.filterMap_cons, hev, hdup]
          omega
        · simp [validTasks, List.filterMap_cons, hev, hid]
      · simp only [load_tasks_go, hev, if_neg hdup]
        rw [ih]
        by_cases hid : task.ticket_id = id
        · subst hid
          have hnone : tasks.lookup task.ticket_id = none :=
            Option.not_isSome_iff_eq_none.mp hdup
          have hsome : ((tasks ++ [(task.ticket_id, task)]).lookup task.ticket_id).isSome := by
            rw [List.lookup_append, hnone, lookup_singleton_eq]
            rfl
          rw [hnone] at *
          simp [validTasks, List.filterMap_cons, hev, hsome]
        · have : (tasks ++ [(task.ticket_id, task)]).lookup id = tasks.lookup id := by
            rw [List.lookup_append, lookup_singleton_ne _ (fun hh => hid hh.symm)]
            cases tasks.lookup id <;> rfl
          rw [this]
          simp [validTasks, List.filterMap_cons, hev, hid]

/-! ### Loader invariants: `load_labels` -/

theorem load_labels_go_count (path : String) (lines : List (Nat × LineContent))
    (labels : List (String × (TicketResult × Option String))) (issues : List EvaluationIssue) :
    (load_labels_go path lines labels issues).1.length
      + (load_labels_go path lines labels issues).2.length
      = labels.length + issues.length + lines.length := by
  induction lines generalizing labels issues with
  | nil => simp [load_labels_go]
  | cons p rest ih =>
    obtain ⟨lineno, c⟩ := p
    rcases h : label_line_eval c with pr | trip
    · obtain ⟨tail, tid⟩ := pr
      simp only [load_labels_go, h]
      rw [ih]
      simp
      omega
    · obtain ⟨tid, rd⟩ := trip
      by_cases hdup : (labels.lookup tid).isSome
      · simp only [load_labels_go, h, if_pos hdup]
        rw [ih]
        simp
        omega
      · simp only [load_labels_go, h, if_neg hdup]
        rw [ih]
        simp
        omega

theorem load_labels_go_issues_src (path : String) (lines : List (Nat × LineContent))
    (labels : List (String × (TicketResult × Option String))) (issues : List EvaluationIssue) :
    ∀ e ∈ (load_labels_go path lines labels issues).2,
      e ∈ issues ∨ ∃ p ∈ lines, ∃ tail, e.details = lineTag path p.1 ++ tail := by
  induction lines generalizing labels issues with
  | nil =>
    intro e he
    exact Or.inl (by simpa [load_labels_go] using he)
  | cons p rest ih =>
    obtain ⟨lineno, c⟩ := p
    intro e he
    rcases h : label_line_eval c with pr | trip
    · obtain ⟨tail, tid⟩ := pr
      simp only [load_labels_go, h] at he
      rcases ih _ _ e he with hmem | ⟨q, hq, t, ht⟩
      · rcases List.mem_append.mp hmem with h1 | h2
        · exact Or.inl h1
        · refine Or.inr ⟨(lineno, c), List.mem_cons_self _ _, tail, ?_⟩
          simp only [List.mem_singleton] at h2
          subst h2
          rfl
      · exact Or.inr ⟨q, List.mem_cons_of_mem _ hq, t, ht⟩
    · obtain ⟨tid, rd⟩ := trip
      by_cases hdup : (labels.lookup tid).isSome
      · simp only [load_labels_go, h, if_pos hdup] at he
        rcases ih _ _ e he with hmem | ⟨q, hq, t, ht⟩
        · rcases List.mem_append.mp hmem with h1 | h2
          · exact Or.inl h1
          · refine Or.inr ⟨(lineno, c), List.mem_cons_self _ _, "duplicate ticket_id", ?_⟩
            simp only [List.mem_singleton] at h2
            subst h2
            rfl
        · exact Or.inr ⟨q, List.mem_cons_of_mem _ hq, t, ht⟩
      · simp only [load_labels_go, h, if_neg hdup] at he
        rcases ih _ _ e he with hmem | ⟨q, hq, t, ht⟩
        · exact Or.inl hmem
        · exact Or.inr ⟨q, List.mem_cons_of_mem _ hq, t, ht⟩

theorem load_labels_go_entries (path : String) (lines : List (Nat × LineContent))
    (labels : List (String × (TicketResult × Option String))) (issues : List EvaluationIssue) :
    ∀ kv ∈ (load_labels_go path lines labels issues).1,
      kv ∈ labels ∨ ∃ p ∈ lines, label_line_eval p.2 = Except.ok (kv.1, kv.2) := by
  induction lines generalizing labels issues with
  | nil =>
    intro kv hkv
    exact Or.inl (by simpa [load_labels_go] using hkv)
  | cons p rest ih =>
    obtain ⟨lineno, c⟩ := p
    intro kv hkv
    rcases h : label_line_eval c with pr | trip
    · obtain ⟨tail, tid⟩ := pr
      simp only [load_labels_go, h] at hkv
      rcases ih _ _ kv hkv with hmem | ⟨q, hq, hok⟩
      · exact Or.inl hmem
      · exact Or.inr ⟨q, List.mem_cons_of_mem _ hq, hok⟩
    · obtain ⟨tid, rd⟩ := trip
      by_cases hdup : (labels.lookup tid).isSome
      · simp only [load_labels_go, h, if_pos hdup] at hkv
        rcases ih _ _ kv hkv with hmem | ⟨q, hq, hok⟩
        · exact Or.inl hmem
        · exact Or.inr ⟨q, List.mem_cons_of_mem _ hq, hok⟩
      · simp only [load_labels_go, h, if_neg hdup] at hkv
        rcases ih _ _ kv hkv with hmem | ⟨q, hq, hok⟩
        · rcases List.mem_append.mp hmem with h1 | h2
          · exact Or.inl h1
          · simp only [List.mem_singleton] at h2
            subst h2
            exact Or.inr ⟨(lineno, c), List.mem_cons_self _ _, h⟩
        · exact Or.inr ⟨q, List.mem_cons_of_mem _ hq, hok⟩

theorem load_labels_go_nodup_keys (path : String) (lines : List (Nat × LineContent))
    (labels : List (String × (TicketResult × Option String))) (issues : List EvaluationIssue)
    (h : (keysOf labels).Nodup) :
    (keysOf (load_labels_go path lines labels issues).1).Nodup := by
  induction lines generalizing labels issues with
  | nil => simpa [load_labels_go] using h
  | cons p rest ih =>
    obtain ⟨lineno, c⟩ := p
    rcases hev : label_line_eval c with pr | trip
    · obtain ⟨tail, tid⟩ := pr
      simp only [load_labels_go, hev]
      exact ih _ _ h
    · obtain ⟨tid, rd⟩ := trip
      by_cases hdup : (labels.lookup tid).isSome
      · simp only [load_labels_go, hev, if_pos hdup]
        exact ih _ _ h
      · simp only [load_labels_go, hev, if_neg hdup]
        refine ih _ _ ?_
        have hnot : tid ∉ keysOf labels := by
          intro hmem
          exact hdup ((lookup_isSome_iff_mem_keys labels tid).mpr hmem)
        simpa [keysOf, List.nodup_append] using And.intro h hnot

theorem load_labels_go_lookup (path : String) (lines : List (Nat × LineContent))
    (labels : List (String × (TicketResult × Option String))) (issues : List EvaluationIssue)
    (id : String) :
    (load_labels_go path lines labels issues).1.lookup id
      = ((labels.lookup id).or (validLabels lines id).head?) := by
  induction lines generalizing labels issues with
  | nil => simp [load_labels_go, validLabels]
  | cons p rest ih =>
    obtain ⟨lineno, c⟩ := p
    rcases hev : label_line_eval c with pr | trip
    · obtain ⟨tail, tid⟩ := pr
      simp only [load_labels_go, hev]
      rw [ih]
      simp [validLabels, List.filterMap_cons, hev]
    · obtain ⟨tid, rd⟩ := trip
      by_cases hdup : (labels.lookup tid).isSome
      · simp only [load_labels_go, hev, if_pos hdup]
        rw [ih]
        by_cases hid : tid = id
        · subst hid
          obtain ⟨v, hv⟩ := Option.isSome_iff_exists.mp hdup
          simp [validLabels, List.filterMap_cons, hev, hv]
        · simp [validLabels, List.filterMap_cons, hev, hid]
      · simp only [load_labels_go, hev, if_neg hdup]
        rw [ih]
        by_cases hid : tid = id
        · subst hid
          have hnone : labels.lookup tid = none :=
            Option.not_isSome_iff_eq_none.mp hdup
          rw [List.lookup_append, hnone, lookup_singleton_eq]
          simp [validLabels, List.filterMap_cons, hev]
        · rw [List.lookup_append, lookup_singleton_ne _ (fun hh => hid hh.symm)]
          simp [validLabels, List.filterMap_cons, hev, hid]

theorem load_labels_go_dupCount (path : String) (lines : List (Nat × LineContent))
    (labels : List (String × (TicketResult × Option String))) (issues : List EvaluationIssue)
    (id : String) :
    dupIssueCount id (load_labels_go path lines labels issues).2
      = dupIssueCount id issues
        + (if (labels.lookup id).isSome then (validLabels lines id).length
           else (validLabels lines id).length - 1) := by
  induction lines generalizing labels issues with
  | nil => simp [load_labels_go, validLabels]
  | cons p rest ih =>
    obtain ⟨lineno, c⟩ := p
    rcases hev : label_line_eval c with pr | trip
    · obtain ⟨tail, tid⟩ := pr
      simp only [load_labels_go, hev]
      rw [ih, dupIssueCount_append_schema]
      simp [validLabels, List.filterMap_cons, hev]
    · obtain ⟨tid, rd⟩ := trip
      by_cases hdup : (labels.lookup tid).isSome
      · simp only [load_labels_go, hev, if_pos hdup]
        rw [ih, dupIssueCount_append_join]
        by_cases hid : tid = id
        · subst hid
          simp [validLabels, List.filterMap_cons, hev, hdup]
          omega
        · simp [validLabels, List.filterMap_cons, hev, hid]
      · simp only [load_labels_go, hev, if_neg hdup]
        rw [ih]
        by_cases hid : tid = id
        · subst hid
          have hnone : labels.lookup tid = none :=
            Option.not_isSome_iff_eq_none.mp hdup
          have hsome : ((labels ++ [(tid, rd)]).lookup tid).isSome := by
            rw [List.lookup_append, hnone, lookup_singleton_eq]
            rfl
          rw [hnone] at *
          simp [validLabels, List.filterMap_cons, hev, hsome]
        · have : (labels ++ [(tid, rd)]).lookup id = labels.lookup id := by
            rw [List.lookup_append, lookup_singleton_ne _ (fun hh => hid hh.symm)]
            cases labels.lookup id <;> rfl
          rw [this]
          simp [validLabels, List.filterMap_cons, hev, hid]

/-- C4: for every input file in which an identifier appears on more than one
successfully validated line, `load_tasks` and `load_labels` emit one
join-mismatch issue for every occurrence after the first, and the record
retained in the output map is the one from the first occurrence — later
duplicates never overwrite it. -/
theorem C4_loader_duplicates (tasks_path labels_path : String)
    (tasks_file labels_file : List RawLine) (id : String) :
    ((load_tasks tasks_path tasks_file).1.lookup id
        = (validTasks (iter_lines tasks_file) id).head?)
    ∧ dupIssueCount id (load_tasks tasks_path tasks_file).2
        = (validTasks (iter_lines tasks_file) id).length - 1
    ∧ ((load_labels labels_path labels_file).1.lookup id
        = (validLabels (iter_lines labels_file) id).head?)
    ∧ dupIssueCount id (load_labels labels_path labels_file).2
        = (validLabels (iter_lines labels_file) id).length - 1 := by
  refine ⟨?_, ?_, ?_, ?_⟩
  · rw [load_tasks, load_tasks_go_lookup]
    simp
  · rw [load_tasks, load_tasks_go_dupCount]
    simp [dupIssueCount]
  · rw [load_labels, load_labels_go_lookup]
    simp
  · rw [load_labels, load_labels_go_dupCount]
    simp [dupIssueCount]

/-- C2: the loaders are total functions (they never raise): every blank
line is skipped silently, every non-blank line contributes to exactly one
of the two output collections (one record keyed by identifier, or exactly
one issue), every issue's details carry the file path and line number, and
each failure mode — malformed JSON, non-object root, missing required
field, schema validation failure — yields exactly one schema-violation
issue for its line, which is then skipped. -/
theorem C2_loaders_never_raise (tasks_path labels_path : String)
    (tasks_file labels_file : List RawLine) :
    ((load_tasks tasks_path tasks_file).1.length + (load_tasks tasks_path tasks_file).2.length
        = (iter_lines tasks_file).length)
    ∧ ((load_labels labels_path labels_file).1.length + (load_labels labels_path labels_file).2.length
        = (iter_lines labels_file).length)
    ∧ (∀ e ∈ (load_tasks tasks_path tasks_file).2,
        ∃ p ∈ iter_lines tasks_file, ∃ tail, e.details = lineTag tasks_path p.1 ++ tail)
    ∧ (∀ e ∈ (load_labels labels_path labels_file).2,
        ∃ p ∈ iter_lines labels_file, ∃ tail, e.details = lineTag labels_path p.1 ++ tail)
    ∧ load_tasks tasks_path (tasks_file ++ [RawLine.blank]) = load_tasks tasks_path tasks_file
    ∧ load_labels labels_path (labels_file ++ [RawLine.blank]) = load_labels labels_path labels_file
    ∧ (∀ msg, load_tasks tasks_path [RawLine.content (LineContent.malformed msg)]
        = ([], [mkIssue .SCHEMA_FAILURE (lineTag tasks_path 1 ++ ("invalid JSON (" ++ msg ++ ")")) none]))
    ∧ (∀ q : ℚ, load_tasks tasks_path [RawLine.content (LineContent.parsed (Json.num q))]
        = ([], [mkIssue .SCHEMA_FAILURE (lineTag tasks_path 1 ++ "expected object root") none]))
    ∧ (load_tasks tasks_path [RawLine.content (LineContent.parsed (Json.obj []))]
        = ([], [mkIssue .SCHEMA_FAILURE (lineTag tasks_path 1 ++ "missing task field") none]))
    ∧ (∀ j msg, j ≠ Json.null → TicketTask.model_validate j = .error msg →
        load_tasks tasks_path [RawLine.content (LineContent.parsed (Json.obj [("task", j)]))]
          = ([], [mkIssue .SCHEMA_FAILURE
              (lineTag tasks_path 1 ++ ("task schema violation: " ++ msg)) (taskViolationCandidate j)]))
    ∧ (∀ msg, load_labels labels_path [RawLine.content (LineContent.malformed msg)]
        = ([], [mkIssue .SCHEMA_FAILURE (lineTag labels_path 1 ++ ("invalid JSON (" ++ msg ++ ")")) none]))
    ∧ (load_labels labels_path [RawLine.content (LineContent.parsed (Json.obj []))]
        = ([], [mkIssue .SCHEMA_FAILURE (lineTag labels_path 1 ++ "missing or invalid ticket_id") none]))
    ∧ (∀ tid : String, tid ≠ "" →
        load_labels labels_path [RawLine.content (LineContent.parsed (Json.obj [("ticket_id", Json.str tid)]))]
          = ([], [mkIssue .SCHEMA_FAILURE (lineTag labels_path 1 ++ "missing expected_result field") (some tid)]))
    ∧ (∀ (tid : String) j msg, tid ≠ "" → j ≠ Json.null → TicketResult.model_validate j = .error msg →
        load_labels labels_path
            [RawLine.content (LineContent.parsed (Json.obj [("ticket_id", Json.str tid), ("expected_result", j)]))]
          = ([], [mkIssue .SCHEMA_FAILURE
              (lineTag labels_path 1 ++ ("result schema violation: " ++ msg)) (some tid)])) := by
  refine ⟨?_, ?_, ?_, ?_, ?_, ?_, ?_, ?_, ?_, ?_, ?_, ?_, ?_, ?_⟩
  · rw [load_tasks]
    simpa using load_tasks_go_count tasks_path (iter_lines tasks_file) [] []
  · rw [load_labels]
    simpa using load_labels_go_count labels_path (iter_lines labels_file) [] []
  · intro e he
    rw [load_tasks] at he
    rcases load_tasks_go_issues_src tasks_path (iter_lines tasks_file) [] [] e he with h0 | hp
    · simp at h0
    · exact hp
  · intro e he
    rw [load_labels] at he
    rcases load_labels_go_issues_src labels_path (iter_lines labels_file) [] [] e he with h0 | hp
    · simp at h0
    · exact hp
  · rw [load_tasks, load_tasks, iter_lines_append_blank]
  · rw [load_labels, load_labels, iter_lines_append_blank]
  · intro msg
    rfl
  · intro q
    rfl
  · rfl
  · intro j msg hnull hval
    have hev : task_line_eval (LineContent.parsed (Json.obj [("task", j)]))
        = .error ("task schema violation: " ++ msg, taskViolationCandidate j) := by
      cases j with
      | null => exact absurd rfl hnull
      | bool b => simp [task_line_eval, parse_json, getKey, List.lookup, hval]
      | num q => simp [task_line_eval, parse_json, getKey, List.lookup, hval]
      | str s => simp [task_line_eval, parse_json, getKey, List.lookup, hval]
      | arr items => simp [task_line_eval, parse_json, getKey, List.lookup, hval]
      | obj fields => simp [task_line_eval, parse_json, getKey, List.lookup, hval]
    simp [load_tasks, iter_lines, iter_lines_go, load_tasks_go, hev]
  · intro msg
    rfl
  · rfl
  · intro tid htid
    have hev : label_line_eval (LineContent.parsed (Json.obj [("ticket_id", Json.str tid)]))
        = .error ("missing expected_result field", some tid) := by
      simp [label_line_eval, parse_json, getKey, List.lookup, htid]
    simp [load_labels, iter_lines, iter_lines_go, load_labels_go, hev]
  · intro tid j msg htid hnull hval
    have hev : label_line_eval
          (LineContent.parsed (Json.obj [("ticket_id", Json.str tid), ("expected_result", j)]))
        = .error ("result schema violation: " ++ msg, some tid) := by
      cases j with
      | null => exact absurd rfl hnull
      | bool b => simp [label_line_eval, parse_json, getKey, List.lookup, htid, hval]
      | num q => simp [label_line_eval, parse_json, getKey, List.lookup, htid, hval]
      | str s => simp [label_line_eval, parse_json, getKey, List.lookup, htid, hval]
      | arr items => simp [label_line_eval, parse_json, getKey, List.lookup, htid, hval]
      | obj fields => simp [label_line_eval, parse_json, getKey, List.lookup, htid, hval]
    simp [load_labels, iter_lines, iter_lines_go, load_labels_go, hev]

/-- Witness for C2 at concrete inputs: a malformed tasks line yields an
issue located by path and line number, and a label line missing
`expected_result` yields exactly the expected schema issue. -/
theorem C2_loaders_never_raise_witness :
    (∃ p ∈ iter_lines [RawLine.content (LineContent.malformed "x")], ∃ tail,
      (mkIssue IssueType.SCHEMA_FAILURE
          (lineTag "tasks.jsonl" 1 ++ ("invalid JSON (" ++ "x" ++ ")")) none).details
        = lineTag "tasks.jsonl" p.1 ++ tail)
    ∧ load_labels "labels.jsonl"
        [RawLine.content (LineContent.parsed (Json.obj [("ticket_id", Json.str "TKT-9")]))]
      = ([], [mkIssue .SCHEMA_FAILURE
          (lineTag "labels.jsonl" 1 ++ "missing expected_result field") (some "TKT-9")]) := by
  constructor
  · refine (C2_loaders_never_raise "tasks.jsonl" "labels.jsonl"
      [RawLine.content (LineContent.malformed "x")] []).2.2.1 _ ?_
    rw [show (load_tasks "tasks.jsonl" [RawLine.content (LineContent.malformed "x")]).2
      = [mkIssue IssueType.SCHEMA_FAILURE
          (lineTag "tasks.jsonl" 1 ++ ("invalid JSON (" ++ "x" ++ ")")) none] from rfl]
    exact List.mem_singleton.mpr rfl
  · exact (C2_loaders_never_raise "tasks.jsonl" "labels.jsonl" [] []).2.2.2.2.2.2.2.2.2.2.2.2.1
      "TKT-9" (by decide)

/-! ### Evaluator loop structure -/

theorem evaluate_go_take (run : TicketTask → AgentResponse) (metrics : List Metric)
    (l : ℤ) (examples : List EvalExample) (count : ℕ) :
    evaluate_go run metrics (some l) examples count
      = ((examples.take (l - count).toNat).map (eval_step run metrics)) := by
  induction examples generalizing count with
  | nil => simp [evaluate_go]
  | cons ex rest ih =>
    by_cases h : (count : ℤ) ≥ l
    · have hz : (l - count).toNat = 0 := by omega
      simp [evaluate_go, if_pos h, hz]
    · have hs : (l - count).toNat = (l - (count + 1)).toNat + 1 := by omega
      simp only [evaluate_go, if_neg h, hs, List.take_succ_cons, List.map_cons]
      rw [ih (count + 1)]
      norm_cast

theorem evaluate_examples_take (examples : List EvalExample)
    (run : TicketTask → AgentResponse) (metrics : List Metric) (l : ℤ) :
    evaluate_examples examples run metrics (some l)
      = (examples.take l.toNat).map (eval_step run metrics) := by
  rw [evaluate_examples, evaluate_go_take]
  norm_num

/-- C10: calling `evaluate_examples` with a zero or negative limit returns
the empty result list, for every example list, runner, and metric list — a
non-positive limit behaves like limit 0, not like no limit. -/
theorem C10_nonpositive_limit_empty (examples : List EvalExample)
    (run : TicketTask → AgentResponse) (metrics : List Metric) (l : ℤ)
    (h : l ≤ 0) :
    evaluate_examples examples run metrics (some l) = [] := by
  rw [evaluate_examples_take]
  have hz : l.toNat = 0 := by omega
  simp [hz]

/-- Witness for C10: a nonempty example list with limit `-1` (and limit `0`)
produces no results at all. -/
theorem C10_nonpositive_limit_empty_witness :
    evaluate_examples [{ task := taskOf "a", gold := goldResult }]
        (fun _ => { result := goldResult, metadata := {} }) metricsList (some (-1)) = []
    ∧ evaluate_examples [{ task := taskOf "a", gold := goldResult }]
        (fun _ => { result := goldResult, metadata := {} }) metricsList (some 0) = [] :=
  ⟨C10_nonpositive_limit_empty _ _ _ _ (by decide),
   C10_nonpositive_limit_empty _ _ _ _ (by decide)⟩

/-- C5: `CategoricalAccuracyMetric.compute` returns value 1.0 exactly when
both the category and the severity of the actual result equal the gold
category and severity, and 0.0 otherwise — no partial credit — with
details reporting the category match and the severity match
independently. -/
theorem C5_categorical_accuracy (ex : EvalExample) (response : AgentResponse) :
    ((CategoricalAccuracyMetric.compute ex response).value = .num 1
      ↔ (ex.gold.category = response.result.category
          ∧ ex.gold.severity = response.result.severity))
    ∧ ((CategoricalAccuracyMetric.compute ex response).value = .num 1
        ∨ (CategoricalAccuracyMetric.compute ex response).value = .num 0)
    ∧ (CategoricalAccuracyMetric.compute ex response).details
        = some [("category_match", .bool (decide (ex.gold.category = response.result.category))),
                ("severity_match", .bool (decide (ex.gold.severity = response.result.severity)))] := by
  by_cases hc : ex.gold.category = response.result.category <;>
    by_cases hs : ex.gold.severity = response.result.severity <;>
      simp [CategoricalAccuracyMetric, hc, hs]

/-- C6: `NextStepMatcher.compute` returns true exactly when the expected
and actual next-step strings are equal after trimming surrounding
whitespace and lowercasing (so "Fix it" matches "  fix it  "), with
details reporting both normalized strings. -/
theorem C6_next_step_match (ex : EvalExample) (response : AgentResponse) :
    ((NextStepMatcher.compute ex response).value = .bool true
      ↔ pyLower (pyStrip ex.gold.next_step) = pyLower (pyStrip response.result.next_step))
    ∧ ((NextStepMatcher.compute ex response).value = .bool true
        ∨ (NextStepMatcher.compute ex response).value = .bool false)
    ∧ (NextStepMatcher.compute ex response).details
        = some [("normalized_gold", .str (pyLower (pyStrip ex.gold.next_step))),
                ("normalized_pred", .str (pyLower (pyStrip response.result.next_step)))]
    ∧ pyLower (pyStrip "Fix it") = pyLower (pyStrip "  fix it  ") := by
  refine ⟨?_, ?_, rfl, rfl⟩
  · by_cases h : pyLower (pyStrip ex.gold.next_step) = pyLower (pyStrip response.result.next_step) <;>
      simp [NextStepMatcher, h]
  · by_cases h : pyLower (pyStrip ex.gold.next_step) = pyLower (pyStrip response.result.next_step) <;>
      simp [NextStepMatcher, h]

/-! ### Aggregation (`summarize_results`) -/

theorem sums_foldlM_some (results : List EvalResult) (acc : ℚ × ℚ × ℚ × ℚ)
    (h : ∀ r ∈ results, (accFloat r).isSome ∧ (costFloat r).isSome) :
    results.foldlM sums_step acc = some
      (acc.1 + (results.map (fun r => (accFloat r).getD 0)).sum,
       acc.2.1 + (results.map nsContrib).sum,
       acc.2.2.1 + (results.map svContrib).sum,
       acc.2.2.2 + (results.map (fun r => (costFloat r).getD 0)).sum) := by
  induction results generalizing acc with
  | nil => simp
  | cons r rest ih =>
    obtain ⟨ha, hc⟩ := h r (List.mem_cons_self _ _)
    obtain ⟨a, ha⟩ := Option.isSome_iff_exists.mp ha
    obtain ⟨c, hc⟩ := Option.isSome_iff_exists.mp hc
    have hstep : sums_step acc r
        = some (acc.1 + a, acc.2.1 + nsContrib r, acc.2.2.1 + svContrib r, acc.2.2.2 + c) := by
      simp [sums_step, ha, hc]
    rw [List.foldlM_cons, hstep]
    simp only [Option.bind_eq_bind, Option.some_bind]
    rw [ih _ (fun x hx => h x (List.mem_cons_of_mem _ hx))]
    simp only [List.map_cons, List.sum_cons, ha, hc, Option.getD_some]
    refine congrArg some ?_
    refine Prod.ext (by ring) (Prod.ext (by ring) (Prod.ext (by ring) (by ring)))

theorem sums_foldlM_none (results : List EvalResult) (acc : ℚ × ℚ × ℚ × ℚ)
    (h : ∃ r ∈ results, accFloat r = none ∨ costFloat r = none) :
    results.foldlM sums_step acc = none := by
  induction results generalizing acc with
  | nil => simp at h
  | cons r rest ih =>
    obtain ⟨r0, hr0, hbad⟩ := h
    rcases List.mem_cons.mp hr0 with heq | hmem
    · subst heq
      rcases hbad with ha | hc
      · rw [List.foldlM_cons]
        simp [sums_step, ha]
      · rw [List.foldlM_cons]
        cases haq : accFloat r0 with
        | none => simp [sums_step, haq]
        | some a => simp [sums_step, haq, hc]
    · rw [List.foldlM_cons]
      cases hstep : sums_step acc r with
      | none => simp
      | some acc2 => simpa using ih acc2 ⟨r0, hmem, hbad⟩

/-- Counterexample for C7: the claim says a present non-boolean
`categorical_accuracy` value contributes 0 to the mean, and that a
non-numeric cost value defaults to 0.  In the code, `float(...)` converts
a present numeric value (so 1.0 contributes 1, giving mean 1, not 0) and
raises a `TypeError` on a dict-valued cost (modelled as `none`) instead of
defaulting it to 0. -/
theorem C7_counterexample :
    summarize_results [accOnlyResult]
      = some { total_examples := 1, categorical_accuracy := 1, next_step_match_rate := 0,
               schema_valid_pct := 0, total_cost_usd := 0 }
    ∧ summarize_results [dictCostResult] = none := by
  constructor
  · simp [summarize_results, sums_step, accFloat, costFloat, nsContrib, svContrib, pyFloat,
      List.lookup, accOnlyResult]
  · simp [summarize_results, sums_step, accFloat, costFloat, nsContrib, svContrib, pyFloat,
      List.lookup, dictCostResult]

/-- C7 (amended): `summarize_results` of the empty sequence is the all-zero
summary with `total_examples = 0`; otherwise the next-step match rate and
schema-valid fraction are arithmetic means where a missing or non-boolean
value contributes 0, the categorical accuracy is the arithmetic mean of
the `float(...)` conversions of the stored values (missing contributes 0,
booleans 1/0, numbers their own value), and the total cost is the sum (not
the mean) of the `float(...)` conversions of per-result cost values with
missing defaulting to 0; a value on which `float(...)` raises (a details
dict) makes the whole aggregation raise instead of contributing 0. -/
theorem C7_amended_summarize (results : List EvalResult) :
    (summarize_results []
      = some { total_examples := 0, categorical_accuracy := 0, next_step_match_rate := 0,
               schema_valid_pct := 0, total_cost_usd := 0 })
    ∧ (results ≠ [] →
        (∀ r ∈ results, (accFloat r).isSome ∧ (costFloat r).isSome) →
        summarize_results results = some
          { total_examples := results.length,
            categorical_accuracy :=
              (results.map (fun r => (accFloat r).getD 0)).sum / results.length,
            next_step_match_rate := (results.map nsContrib).sum / results.length,
            schema_valid_pct := (results.map svContrib).sum / results.length,
            total_cost_usd := (results.map (fun r => (costFloat r).getD 0)).sum })
    ∧ ((∃ r ∈ results, accFloat r = none ∨ costFloat r = none) →
        summarize_results results = none) := by
  refine ⟨rfl, ?_, ?_⟩
  · intro hne hall
    have hlen : results.length ≠ 0 := fun hz => hne (List.length_eq_zero.mp hz)
    rw [summarize_results, if_neg hlen, sums_foldlM_some results (0, 0, 0, 0) hall]
    simp
  · intro hex
    have hne : results ≠ [] := by
      obtain ⟨r, hr, _⟩ := hex
      exact List.ne_nil_of_mem hr
    have hlen : results.length ≠ 0 := fun hz => hne (List.length_eq_zero.mp hz)
    rw [summarize_results, if_neg hlen, sums_foldlM_none results (0, 0, 0, 0) hex]
    rfl

/-- Witness for C7 (amended) at a concrete single-result run with
accuracy 1 and cost 1/4. -/
theorem C7_amended_summarize_witness :
    summarize_results [quarterCostResult]
      = some { total_examples := 1,
               categorical_accuracy :=
                 ([quarterCostResult].map (fun r => (accFloat r).getD 0)).sum / 1,
               next_step_match_rate := ([quarterCostResult].map nsContrib).sum / 1,
               schema_valid_pct := ([quarterCostResult].map svContrib).sum / 1,
               total_cost_usd := ([quarterCostResult].map (fun r => (costFloat r).getD 0)).sum } := by
  have h := (C7_amended_summarize [quarterCostResult]).2.1
    (by simp)
    (by
      intro r hr
      simp only [List.mem_singleton] at hr
      subst hr
      exact ⟨rfl, rfl⟩)
  simpa using h

/-- C9: when the wrapped callable returns a full `AgentResponse`, the
measured elapsed time is written into the latency field only when that
field is `None` — an explicitly reported latency is never overwritten —
and all other metadata fields are left unchanged; when the callable
returns a bare outcome, the metadata comes from the caller-supplied hook
when present, and otherwise contains only the measured latency. -/
theorem C9_runner_latency_backfill
    (agent_callable : TicketTask → TicketResult ⊕ AgentResponse)
    (metadata_hook : Option (RunContext → AgentRunMetadata))
    (elapsed_ms : ℚ) (task : TicketTask) :
    (∀ response, agent_callable task = Sum.inr response →
      response.metadata.latency_ms = none →
      CallableAgentRunner.run agent_callable metadata_hook elapsed_ms task
        = { response with metadata := { response.metadata with latency_ms := some elapsed_ms } })
    ∧ (∀ response l, agent_callable task = Sum.inr response →
      response.metadata.latency_ms = some l →
      CallableAgentRunner.run agent_callable metadata_hook elapsed_ms task = response)
    ∧ (∀ result hook, agent_callable task = Sum.inl result → metadata_hook = some hook →
      CallableAgentRunner.run agent_callable metadata_hook elapsed_ms task
        = { result := result,
            metadata := hook { task := task, result := result, elapsed_ms := elapsed_ms } })
    ∧ (∀ result, agent_callable task = Sum.inl result → metadata_hook = none →
      CallableAgentRunner.run agent_callable metadata_hook elapsed_ms task
        = { result := result,
            metadata := { latency_ms := some elapsed_ms, tokens_in := none, tokens_out := none,
                          usd_cost := none, tool_calls := none, retries := none,
                          cache_hit := none, failure_reason := none } }) := by
  refine ⟨?_, ?_, ?_, ?_⟩
  · intro response hcall hlat
    simp [CallableAgentRunner.run, hcall, hlat]
  · intro response l hcall hlat
    simp [CallableAgentRunner.run, hcall, hlat]
  · intro result hook hcall hhook
    simp [CallableAgentRunner.run, hcall, hhook]
  · intro result hcall hhook
    simp [CallableAgentRunner.run, hcall, hhook]

/-- Witness for C9 at concrete inputs: latency is backfilled when absent
(other fields kept), kept when present, the hook supplies metadata for a
bare outcome, and without a hook the metadata is only the measured
latency. -/
theorem C9_runner_latency_backfill_witness :
    (CallableAgentRunner.run (fun _ => Sum.inr respNoLatency) none 5 (taskOf "a")
      = { respNoLatency with
          metadata := { respNoLatency.metadata with latency_ms := some 5 } })
    ∧ (CallableAgentRunner.run (fun _ => Sum.inr respWithLatency) none 5 (taskOf "a")
      = respWithLatency)
    ∧ (CallableAgentRunner.run (fun _ => Sum.inl goldResult)
        (some (fun _ => { tokens_in := some 3 })) 5 (taskOf "a")
      = { result := goldResult, metadata := { tokens_in := some 3 } })
    ∧ (CallableAgentRunner.run (fun _ => Sum.inl goldResult) none 5 (taskOf "a")
      = { result := goldResult, metadata := { latency_ms := some 5 } }) := by
  refine ⟨?_, ?_, ?_, ?_⟩
  · exact (C9_runner_latency_backfill (fun _ => Sum.inr respNoLatency) none 5 (taskOf "a")).1
      respNoLatency rfl rfl
  · exact (C9_runner_latency_backfill (fun _ => Sum.inr respWithLatency) none 5 (taskOf "a")).2.1
      respWithLatency 7 rfl rfl
  · exact (C9_runner_latency_backfill (fun _ => Sum.inl goldResult)
      (some (fun _ => { tokens_in := some 3 })) 5 (taskOf "a")).2.2.1
      goldResult (fun _ => { tokens_in := some 3 }) rfl rfl
  · exact (C9_runner_latency_backfill (fun _ => Sum.inl goldResult) none 5 (taskOf "a")).2.2.2
      goldResult rfl rfl

/-! ### Metric-loop structure -/

theorem dictInsert_of_lookup_none {α : Type} (m : List (String × α)) (k : String) (v : α)
    (h : m.lookup k = none) : dictInsert m k v = m ++ [(k, v)] := by
  simp [dictInsert, h]

theorem keysOf_append {α : Type} (m1 m2 : List (String × α)) :
    keysOf (m1 ++ m2) = keysOf m1 ++ keysOf m2 := by
  simp [keysOf]

theorem lookup_eq_none_of_not_mem_keys {α : Type} (m : List (String × α)) (k : String)
    (h : k ∉ keysOf m) : m.lookup k = none := by
  cases hl : m.lookup k with
  | none => rfl
  | some v =>
    exact absurd ((lookup_isSome_iff_mem_keys m k).mp (by simp [hl])) h

theorem run_metrics_flat_go (ex : EvalExample) (response : AgentResponse)
    (ms : List Metric) (acc : List (String × MetricEntry))
    (hnd : (keysOf acc ++ metricFlatKeys ms ex response).Nodup) :
    ms.foldl (metric_loop_step ex response) acc = acc ++ metricFlat ms ex response := by
  induction ms generalizing acc with
  | nil => simp [metricFlat]
  | cons m rest ih =>
    have hflat : metricFlat (m :: rest) ex response
        = metricEntriesOf m ex response ++ metricFlat rest ex response := by
      simp [metricFlat]
    have hkeys : metricFlatKeys (m :: rest) ex response
        = keysOf (metricEntriesOf m ex response) ++ metricFlatKeys rest ex response := by
      simp [metricFlatKeys, hflat, keysOf]
    rw [hkeys] at hnd
    have hstep : metric_loop_step ex response acc m = acc ++ metricEntriesOf m ex response := by
      have hname_notin : (m.compute ex response).name ∉ keysOf acc := by
        intro hmem
        have : ¬ (keysOf acc).Disjoint
            (keysOf (metricEntriesOf m ex response) ++ metricFlatKeys rest ex response) := by
          intro hdis
          exact hdis hmem (by
            apply List.mem_append_left
            simp [metricEntriesOf, keysOf])
        rw [← List.append_assoc] at hnd
        exact this (by
          have := List.nodup_append.mp (by simpa [List.append_assoc] using hnd)
          exact this.2.2)
      have hlook : acc.lookup (m.compute ex response).name = none :=
        lookup_eq_none_of_not_mem_keys _ _ hname_notin
      cases hdet : (m.compute ex response).details with
      | none =>
        simp [metric_loop_step, hdet, dictInsert_of_lookup_none _ _ _ hlook, metricEntriesOf]
      | some d =>
        by_cases hde : d.isEmpty
        · simp [metric_loop_step, hdet, hde, dictInsert_of_lookup_none _ _ _ hlook,
            metricEntriesOf]
        · have hdkey_entry : ((m.compute ex response).name ++ "_details")
              ∈ keysOf (metricEntriesOf m ex response) := by
            simp [metricEntriesOf, keysOf, hdet, hde]
          have hdkey_notin_acc : ((m.compute ex response).name ++ "_details") ∉ keysOf acc := by
            intro hmem
            have hp := List.nodup_append.mp (by simpa [List.append_assoc] using hnd)
            exact hp.2.2 hmem (List.mem_append_left _ hdkey_entry)
          have hdkey_ne : ((m.compute ex response).name ++ "_details")
              ≠ (m.compute ex response).name := by
            intro heq
            have hlen := congrArg String.length heq
            simp [String.length_append] at hlen
            exact (by decide : ¬ ("_details".length = 0)) hlen
          have hlook2 : (acc ++ [((m.compute ex response).name,
              MetricEntry.scalar (m.compute ex response).value)]).lookup
                ((m.compute ex response).name ++ "_details") = none := by
            rw [List.lookup_append, lookup_eq_none_of_not_mem_keys _ _ hdkey_notin_acc,
              lookup_singleton_ne _ hdkey_ne]
            rfl
          simp only [metric_loop_step, hdet, hde, if_neg (by simpa using hde)]
          rw [dictInsert_of_lookup_none _ _ _ hlook,
            dictInsert_of_lookup_none _ _ _ hlook2]
          simp [metricEntriesOf, hdet, hde]
    rw [List.foldl_cons, hstep, hflat]
    rw [ih (acc ++ metricEntriesOf m ex response) (by
      rw [keysOf_append]
      simpa [List.append_assoc] using hnd)]
    simp

theorem evaluate_go_none (run : TicketTask → AgentResponse) (metrics : List Metric)
    (examples : List EvalExample) (count : ℕ) :
    evaluate_go run metrics none examples count = examples.map (eval_step run metrics) := by
  induction examples generalizing count with
  | nil => simp [evaluate_go]
  | cons ex rest ih =>
    simp [evaluate_go, ih (count + 1)]

/-- C8: `evaluate_examples` produces one `EvalResult` per processed example
in input order, stopping once the limit is reached (examples past the
limit are not processed and generate no issues — the runner's behavior on
them is irrelevant); for each processed example the runner is invoked once
(`eval_step`), each metric contributes its entries once, in the given
metric order, and a `<name>_details` entry is present only when that
metric supplies non-empty details. -/
theorem C8_evaluate_examples_structure (examples : List EvalExample)
    (run : TicketTask → AgentResponse) (metrics : List Metric) :
    (evaluate_examples examples run metrics none = examples.map (eval_step run metrics))
    ∧ (∀ l : ℤ, evaluate_examples examples run metrics (some l)
        = (examples.take l.toNat).map (eval_step run metrics))
    ∧ (∀ (l : ℤ) (run2 : TicketTask → AgentResponse),
        (∀ ex ∈ examples.take l.toNat, run ex.task = run2 ex.task) →
        evaluate_examples examples run metrics (some l)
          = evaluate_examples examples run2 metrics (some l))
    ∧ (∀ ex response, (metricFlatKeys metrics ex response).Nodup →
        run_metrics metrics ex response = metricFlat metrics ex response)
    ∧ (∀ ex, eval_step run metrics ex
        = { ticket_id := ex.task.ticket_id, output := (run ex.task).result,
            metrics := run_metrics metrics ex (run ex.task),
            metadata := (run ex.task).metadata }) := by
  refine ⟨?_, ?_, ?_, ?_, ?_⟩
  · exact evaluate_go_none run metrics examples 0
  · intro l
    exact evaluate_examples_take examples run metrics l
  · intro l run2 hagree
    rw [evaluate_examples_take, evaluate_examples_take]
    refine List.map_congr_left ?_
    intro ex hex
    simp [eval_step, hagree ex hex]
  · intro ex response hnd
    rw [run_metrics, run_metrics_flat_go ex response metrics [] (by simpa [keysOf] using hnd)]
    rfl
  · intro ex
    rfl

/-- Witness for C8: with the four baseline metrics, a two-example list, the
echo runner and limit 1, the loop structure and the flattened metrics
mapping are realized at concrete inputs. -/
theorem C8_evaluate_examples_structure_witness :
    (evaluate_examples [exampleW, exampleW] echoRun metricsList (some 1)
      = ([exampleW, exampleW].take (Int.toNat 1)).map (eval_step echoRun metricsList))
    ∧ (evaluate_examples [exampleW, exampleW] echoRun metricsList (some 1)
      = evaluate_examples [exampleW, exampleW] echoRun metricsList (some 1))
    ∧ (run_metrics metricsList exampleW (echoRun (taskOf "a"))
      = metricFlat metricsList exampleW (echoRun (taskOf "a"))) := by
  refine ⟨?_, ?_, ?_⟩
  · exact (C8_evaluate_examples_structure [exampleW, exampleW] echoRun metricsList).2.1 1
  · exact (C8_evaluate_examples_structure [exampleW, exampleW] echoRun metricsList).2.2.1 1
      echoRun (fun ex hex => rfl)
  · exact (C8_evaluate_examples_structure [exampleW, exampleW] echoRun metricsList).2.2.2.1
      exampleW (echoRun (taskOf "a")) (by decide)

/-! ### Join payloads -/

theorem load_tasks_key_payload (path : String) (file : List RawLine) (id : String)
    (h : id ∈ keysOf (load_tasks path file).1) :
    ∃ t, (load_tasks path file).1.lookup id = some t ∧ t.ticket_id = id
      ∧ ∃ p ∈ iter_lines file, task_line_eval p.2 = Except.ok t := by
  have hsome := (lookup_isSome_iff_mem_keys _ _).mpr h
  obtain ⟨t, ht⟩ := Option.isSome_iff_exists.mp hsome
  refine ⟨t, ht, ?_, ?_⟩
  · have hmem := lookup_eq_some_mem ht
    rw [load_tasks] at hmem
    rcases load_tasks_go_entries path (iter_lines file) [] [] (id, t) hmem with h0 | ⟨p, hp, hok, hid⟩
    · simp at h0
    · exact hid.symm ▸ rfl
  · have hmem := lookup_eq_some_mem ht
    rw [load_tasks] at hmem
    rcases load_tasks_go_entries path (iter_lines file) [] [] (id, t) hmem with h0 | ⟨p, hp, hok, hid⟩
    · simp at h0
    · exact ⟨p, hp, hok⟩

theorem load_labels_key_payload (path : String) (file : List RawLine) (id : String)
    (h : id ∈ keysOf (load_labels path file).1) :
    ∃ rd, (load_labels path file).1.lookup id = some rd
      ∧ ∃ p ∈ iter_lines file, label_line_eval p.2 = Except.ok (id, rd) := by
  have hsome := (lookup_isSome_iff_mem_keys _ _).mpr h
  obtain ⟨rd, hrd⟩ := Option.isSome_iff_exists.mp hsome
  refine ⟨rd, hrd, ?_⟩
  have hmem := lookup_eq_some_mem hrd
  rw [load_labels] at hmem
  rcases load_labels_go_entries path (iter_lines file) [] [] (id, rd) hmem with h0 | ⟨p, hp, hok⟩
  · simp at h0
  · exact ⟨p, hp, hok⟩

theorem join_filterMap_ids (tasks : List (String × TicketTask))
    (labels : List (String × (TicketResult × Option String))) (ids : List String)
    (h : ∀ id ∈ ids, (∃ t, tasks.lookup id = some t ∧ t.ticket_id = id)
        ∧ (labels.lookup id).isSome) :
    (ids.filterMap (fun id =>
        (tasks.lookup id).bind fun task =>
          (labels.lookup id).map fun rd =>
            ({ task := task, gold := rd.1, difficulty := rd.2 } : EvalExample))).map
      (fun e => e.task.ticket_id) = ids := by
  induction ids with
  | nil => rfl
  | cons id rest ih =>
    obtain ⟨⟨t, ht, htid⟩, hl⟩ := h id (List.mem_cons_self _ _)
    obtain ⟨rd, hrd⟩ := Option.isSome_iff_exists.mp hl
    rw [List.filterMap_cons]
    simp [ht, hrd, ih (fun x hx => h x (List.mem_cons_of_mem _ hx)), htid]

/-- C1: `assemble_examples` produces exactly one example for each
identifier in the intersection of the task-identifier set T and the
label-identifier set L and none for any other identifier; the number of
examples equals |T ∩ L|, every example's identifier is unique, every
example is built from records that passed schema validation on both sides
(so no example exists for an identifier without a validated record on each
side), and examples are emitted in sorted identifier order. -/
theorem C1_assemble_inner_join (tasks_path labels_path : String)
    (tasks_file labels_file : List RawLine) :
    ((assemble_examples tasks_path tasks_file labels_path labels_file).examples.map
        (fun e => e.task.ticket_id)
      = sortStrings ((keysOf (load_tasks tasks_path tasks_file).1).filter
          (fun id => (keysOf (load_labels labels_path labels_file).1).contains id)))
    ∧ ((assemble_examples tasks_path tasks_file labels_path labels_file).examples.length
      = ((keysOf (load_tasks tasks_path tasks_file).1).toFinset
          ∩ (keysOf (load_labels labels_path labels_file).1).toFinset).card)
    ∧ ((assemble_examples tasks_path tasks_file labels_path labels_file).examples.map
        (fun e => e.task.ticket_id)).Nodup
    ∧ List.Sorted strRel
        ((assemble_examples tasks_path tasks_file labels_path labels_file).examples.map
          (fun e => e.task.ticket_id))
    ∧ (∀ e ∈ (assemble_examples tasks_path tasks_file labels_path labels_file).examples,
        (load_tasks tasks_path tasks_file).1.lookup e.task.ticket_id = some e.task
        ∧ (load_labels labels_path labels_file).1.lookup e.task.ticket_id
            = some (e.gold, e.difficulty)
        ∧ (∃ p ∈ iter_lines tasks_file, task_line_eval p.2 = Except.ok e.task)
        ∧ (∃ p ∈ iter_lines labels_file,
            label_line_eval p.2 = Except.ok (e.task.ticket_id, e.gold, e.difficulty))) := by
  have hTnd : (keysOf (load_tasks tasks_path tasks_file).1).Nodup := by
    rw [load_tasks]
    exact load_tasks_go_nodup_keys _ _ [] [] (by simp [keysOf])
  have hexamples : (assemble_examples tasks_path tasks_file labels_path labels_file).examples
      = (sortStrings ((keysOf (load_tasks tasks_path tasks_file).1).filter
          (fun id => (keysOf (load_labels labels_path labels_file).1).contains id))).filterMap
        (fun id =>
          ((load_tasks tasks_path tasks_file).1.lookup id).bind fun task =>
            ((load_labels labels_path labels_file).1.lookup id).map fun rd =>
              ({ task := task, gold := rd.1, difficulty := rd.2 } : EvalExample)) := rfl
  have hids : ∀ id ∈ sortStrings ((keysOf (load_tasks tasks_path tasks_file).1).filter
        (fun id => (keysOf (load_labels labels_path labels_file).1).contains id)),
      id ∈ keysOf (load_tasks tasks_path tasks_file).1
        ∧ id ∈ keysOf (load_labels labels_path labels_file).1 := by
    intro id hid
    have hmem := sortStrings_mem.mp hid
    rw [List.mem_filter] at hmem
    exact ⟨hmem.1, List.elem_iff.mp hmem.2⟩
  have hmap : ((assemble_examples tasks_path tasks_file labels_path labels_file).examples.map
        (fun e => e.task.ticket_id)
      = sortStrings ((keysOf (load_tasks tasks_path tasks_file).1).filter
          (fun id => (keysOf (load_labels labels_path labels_file).1).contains id))) := by
    rw [hexamples]
    apply join_filterMap_ids
    intro id hid
    obtain ⟨hidT, hidL⟩ := hids id hid
    obtain ⟨t, ht, htid, _⟩ := load_tasks_key_payload _ _ id hidT
    exact ⟨⟨t, ht, htid⟩, (lookup_isSome_iff_mem_keys _ _).mpr hidL⟩
  refine ⟨hmap, ?_, ?_, ?_, ?_⟩
  · have hlen1 : (assemble_examples tasks_path tasks_file labels_path labels_file).examples.length
        = (sortStrings ((keysOf (load_tasks tasks_path tasks_file).1).filter
            (fun id => (keysOf (load_labels labels_path labels_file).1).contains id))).length := by
      rw [← hmap, List.length_map]
    rw [hlen1, sortStrings_length]
    have hfin : ((keysOf (load_tasks tasks_path tasks_file).1).filter
          (fun id => (keysOf (load_labels labels_path labels_file).1).contains id)).toFinset
        = (keysOf (load_tasks tasks_path tasks_file).1).toFinset
            ∩ (keysOf (load_labels labels_path labels_file).1).toFinset := by
      ext x
      simp [List.mem_filter, List.elem_iff]
    rw [← hfin, List.toFinset_card_of_nodup (hTnd.filter _)]
  · rw [hmap]
    exact sortStrings_nodup (hTnd.filter _)
  · rw [hmap]
    exact sortStrings_sorted _
  · intro e he
    rw [hexamples] at he
    obtain ⟨id, hid, hf⟩ := List.mem_filterMap.mp he
    obtain ⟨hidT, hidL⟩ := hids id hid
    obtain ⟨t, ht, htid, p, hp, hok⟩ := load_tasks_key_payload _ _ id hidT
    obtain ⟨rd, hrd, q, hq, hqok⟩ := load_labels_key_payload _ _ id hidL
    rw [ht, hrd] at hf
    simp only [Option.some_bind, Option.map_some'] at hf
    have he2 : e = ({ task := t, gold := rd.1, difficulty := rd.2 } : EvalExample) := by
      cases hf
      rfl
    subst he2
    refine ⟨?_, ?_, ⟨p, hp, hok⟩, ⟨q, hq, ?_⟩⟩
    · simpa [htid] using ht
    · simpa [htid] using hrd
    · simpa [htid] using hqok

/-- Witness for C1 at concrete one-line files sharing identifier `a`: the
assembled example carries identifier `a`, whose records are retrievable
from both loader maps and pass schema validation. -/
theorem C1_assemble_inner_join_witness :
    ((assemble_examples "tasks.jsonl" [taskLine "a"] "labels.jsonl" [labelLine "a"]).examples.map
        (fun e => e.task.ticket_id) = ["a"])
    ∧ ((load_tasks "tasks.jsonl" [taskLine "a"]).1.lookup "a" = some (taskOf "a")
        ∧ ∃ p ∈ iter_lines [taskLine "a"], task_line_eval p.2 = Except.ok (taskOf "a")) := by
  constructor
  · rw [(C1_assemble_inner_join "tasks.jsonl" "labels.jsonl" [taskLine "a"] [labelLine "a"]).1]
    rfl
  · have hmem : ({ task := taskOf "a", gold := goldResult, difficulty := some "easy" } : EvalExample)
        ∈ (assemble_examples "tasks.jsonl" [taskLine "a"] "labels.jsonl" [labelLine "a"]).examples := by
      rw [show (assemble_examples "tasks.jsonl" [taskLine "a"] "labels.jsonl" [labelLine "a"]).examples
        = [{ task := taskOf "a", gold := goldResult, difficulty := some "easy" }] from rfl]
      exact List.mem_singleton.mpr rfl
    have h5 := (C1_assemble_inner_join "tasks.jsonl" "labels.jsonl" [taskLine "a"] [labelLine "a"]).2.2.2.2
      _ hmem
    exact ⟨h5.1, h5.2.2.1⟩

/-- Counterexample for C3: with a tasks file holding only identifier `b`
and a labels file holding only identifier `a`, the assembler emits the
missing-side issue for `b` first and the orphan-side issue for `a` second,
so the remainder issues taken together are NOT in sorted identifier order
(`["b", "a"]` is unsorted); the claim that all remainder issues are
emitted in sorted identifier order is false. -/
theorem C3_counterexample :
    (issueIds (assemble_examples "tasks.jsonl" tasksFileB "labels.jsonl" labelsFileA).issues
      = [some "b", some "a"])
    ∧ (issueKinds (assemble_examples "tasks.jsonl" tasksFileB "labels.jsonl" labelsFileA).issues
      = [IssueType.JOIN_MISMATCH, IssueType.JOIN_MISMATCH])
    ∧ (issueDetails (assemble_examples "tasks.jsonl" tasksFileB "labels.jsonl" labelsFileA).issues
      = ["missing expected result for ticket_id", "orphan expected result without matching task"])
    ∧ ¬ List.Sorted strRel ["b", "a"] := by
  refine ⟨rfl, rfl, rfl, by decide⟩

/-- C3 (amended): `assemble_examples` emits one "missing expected result"
issue per identifier in T \ L and one "orphan expected result" issue per
identifier in L \ T; the missing-side issues are emitted in sorted
identifier order, followed by the orphan-side issues in sorted identifier
order (each remainder block is sorted separately — the combined remainder
list is not globally sorted); and the final issue list preserves all
loader issues first, followed by the join issues. -/
theorem C3_amended_remainder_issues (tasks_path labels_path : String)
    (tasks_file labels_file : List RawLine) :
    ((assemble_examples tasks_path tasks_file labels_path labels_file).issues
      = (load_tasks tasks_path tasks_file).2 ++ (load_labels labels_path labels_file).2
        ++ (sortStrings ((keysOf (load_tasks tasks_path tasks_file).1).filter
            (fun id => !((keysOf (load_labels labels_path labels_file).1).contains id)))).map
          (fun id => mkIssue .JOIN_MISMATCH "missing expected result for ticket_id" (some id))
        ++ (sortStrings ((keysOf (load_labels labels_path labels_file).1).filter
            (fun id => !((keysOf (load_tasks tasks_path tasks_file).1).contains id)))).map
          (fun id => mkIssue .JOIN_MISMATCH "orphan expected result without matching task" (some id)))
    ∧ List.Sorted strRel (sortStrings ((keysOf (load_tasks tasks_path tasks_file).1).filter
        (fun id => !((keysOf (load_labels labels_path labels_file).1).contains id))))
    ∧ List.Sorted strRel (sortStrings ((keysOf (load_labels labels_path labels_file).1).filter
        (fun id => !((keysOf (load_tasks tasks_path tasks_file).1).contains id))))
    ∧ (∀ id, id ∈ sortStrings ((keysOf (load_tasks tasks_path tasks_file).1).filter
          (fun id => !((keysOf (load_labels labels_path labels_file).1).contains id)))
        ↔ (id ∈ keysOf (load_tasks tasks_path tasks_file).1
            ∧ id ∉ keysOf (load_labels labels_path labels_file).1))
    ∧ (∀ id, id ∈ sortStrings ((keysOf (load_labels labels_path labels_file).1).filter
          (fun id => !((keysOf (load_tasks tasks_path tasks_file).1).contains id)))
        ↔ (id ∈ keysOf (load_labels labels_path labels_file).1
            ∧ id ∉ keysOf (load_tasks tasks_path tasks_file).1)) := by
  refine ⟨rfl, sortStrings_sorted _, sortStrings_sorted _, ?_, ?_⟩
  · intro id
    rw [sortStrings_mem, List.mem_filter]
    simp [List.elem_iff]
  · intro id
    rw [sortStrings_mem, List.mem_filter]
    simp [List.elem_iff]

end TriageEval
